import Mathlib

/-!
Verification model of the quantlab data pipeline's response-normalization
and raw-to-final transform engine. The definitions are shallow embeddings
of the Python source in `src/quantlab_data_pipeline/` (mainly
`ingestion.py`, `transform.py`, `failure_utils.py`): pandas DataFrames
become lists of association-list rows together with an ordered column
list, JSON payloads become an inductive `Payload`, Python exceptions
become `Except Err`, and the external library calls that parse strings
(`ast.literal_eval`, `json.loads`, `pd.read_csv`, `pd.to_datetime`,
`pd.to_numeric`) become an `Oracles` record of abstract parsing
functions, so every theorem holds for any behaviour of those libraries
consistent with its hypotheses.
-/

namespace QDP

/-- A deserialized provider payload: the weakly-typed values
`_content_to_df` in `ingestion.py` dispatches on. `.tup` models a Python
tuple, which `isinstance(content, list)` does not match. `.date` models a
`datetime.date` produced by coercion. -/
inductive Payload where
  | list : List Payload → Payload
  | map : List (String × Payload) → Payload
  | str : String → Payload
  | int : Int → Payload
  | bool : Bool → Payload
  | date : Nat → Payload
  | tup : List Payload → Payload
  | null : Payload

mutual

/-- Structural equality test on payloads. -/
def pbeq : Payload → Payload → Bool
  | .list a, .list b => plbeq a b
  | .map a, .map b => pmbeq a b
  | .str a, .str b => a = b
  | .int a, .int b => a = b
  | .bool a, .bool b => a = b
  | .date a, .date b => a = b
  | .tup a, .tup b => plbeq a b
  | .null, .null => true
  | _, _ => false

/-- Equality test on payload lists. -/
def plbeq : List Payload → List Payload → Bool
  | [], [] => true
  | x :: xs, y :: ys => pbeq x y && plbeq xs ys
  | _, _ => false

/-- Equality test on payload maps. -/
def pmbeq : List (String × Payload) → List (String × Payload) → Bool
  | [], [] => true
  | (k, v) :: xs, (l, w) :: ys => k = l && pbeq v w && pmbeq xs ys
  | _, _ => false

end

mutual

theorem pbeq_iff : ∀ a b : Payload, pbeq a b = true ↔ a = b
  | .list a, .list b => by
    simp only [pbeq, Payload.list.injEq]; exact plbeq_iff a b
  | .map a, .map b => by
    simp only [pbeq, Payload.map.injEq]; exact pmbeq_iff a b
  | .str a, .str b => by simp [pbeq]
  | .int a, .int b => by simp [pbeq]
  | .bool a, .bool b => by simp [pbeq]
  | .date a, .date b => by simp [pbeq]
  | .tup a, .tup b => by
    simp only [pbeq, Payload.tup.injEq]; exact plbeq_iff a b
  | .null, .null => by simp [pbeq]
  | .list _, .map _ => by simp [pbeq]
  | .list _, .str _ => by simp [pbeq]
  | .list _, .int _ => by simp [pbeq]
  | .list _, .bool _ => by simp [pbeq]
  | .list _, .date _ => by simp [pbeq]
  | .list _, .tup _ => by simp [pbeq]
  | .list _, .null => by simp [pbeq]
  | .map _, .list _ => by simp [pbeq]
  | .map _, .str _ => by simp [pbeq]
  | .map _, .int _ => by simp [pbeq]
  | .map _, .bool _ => by simp [pbeq]
  | .map _, .date _ => by simp [pbeq]
  | .map _, .tup _ => by simp [pbeq]
  | .map _, .null => by simp [pbeq]
  | .str _, .list _ => by simp [pbeq]
  | .str _, .map _ => by simp [pbeq]
  | .str _, .int _ => by simp [pbeq]
  | .str _, .bool _ => by simp [pbeq]
  | .str _, .date _ => by simp [pbeq]
  | .str _, .tup _ => by simp [pbeq]
  | .str _, .null => by simp [pbeq]
  | .int _, .list _ => by simp [pbeq]
  | .int _, .map _ => by simp [pbeq]
  | .int _, .str _ => by simp [pbeq]
  | .int _, .bool _ => by simp [pbeq]
  | .int _, .date _ => by simp [pbeq]
  | .int _, .tup _ => by simp [pbeq]
  | .int _, .null => by simp [pbeq]
  | .bool _, .list _ => by simp [pbeq]
  | .bool _, .map _ => by simp [pbeq]
  | .bool _, .str _ => by simp [pbeq]
  | .bool _, .int _ => by simp [pbeq]
  | .bool _, .date _ => by simp [pbeq]
  | .bool _, .tup _ => by simp [pbeq]
  | .bool _, .null => by simp [pbeq]
  | .date _, .list _ => by simp [pbeq]
  | .date _, .map _ => by simp [pbeq]
  | .date _, .str _ => by simp [pbeq]
  | .date _, .int _ => by simp [pbeq]
  | .date _, .bool _ => by simp [pbeq]
  | .date _, .tup _ => by simp [pbeq]
  | .date _, .null => by simp [pbeq]
  | .tup _, .list _ => by simp [pbeq]
  | .tup _, .map _ => by simp [pbeq]
  | .tup _, .str _ => by simp [pbeq]
  | .tup _, .int _ => by simp [pbeq]
  | .tup _, .bool _ => by simp [pbeq]
  | .tup _, .date _ => by simp [pbeq]
  | .tup _, .null => by simp [pbeq]
  | .null, .list _ => by simp [pbeq]
  | .null, .map _ => by simp [pbeq]
  | .null, .str _ => by simp [pbeq]
  | .null, .int _ => by simp [pbeq]
  | .null, .bool _ => by simp [pbeq]
  | .null, .date _ => by simp [pbeq]
  | .null, .tup _ => by simp [pbeq]

theorem plbeq_iff : ∀ a b : List Payload, plbeq a b = true ↔ a = b
  | [], [] => by simp [plbeq]
  | x :: xs, y :: ys => by
    simp only [plbeq, Bool.and_eq_true, List.cons.injEq]
    exact and_congr (pbeq_iff x y) (plbeq_iff xs ys)
  | [], _ :: _ => by simp [plbeq]
  | _ :: _, [] => by simp [plbeq]

theorem pmbeq_iff :
    ∀ a b : List (String × Payload), pmbeq a b = true ↔ a = b
  | [], [] => by simp [pmbeq]
  | (k, v) :: xs, (l, w) :: ys => by
    simp only [pmbeq, Bool.and_eq_true, List.cons.injEq, Prod.mk.injEq,
      decide_eq_true_eq, pbeq_iff v w, pmbeq_iff xs ys]
  | [], _ :: _ => by simp [pmbeq]
  | _ :: _, [] => by simp [pmbeq]

end

instance : DecidableEq Payload := fun a b =>
  decidable_of_iff (pbeq a b = true) (pbeq_iff a b)

/-- One DataFrame row: field name to cell value, in column order.
A name absent from the list models a missing cell (pandas NaN). -/
abbrev Row := List (String × Payload)

/-- A pandas DataFrame: ordered column labels and a list of rows. -/
structure DF where
  cols : List String
  rows : List Row
deriving DecidableEq

/-- Association-list lookup used for both payload maps and rows. -/
def lookupA : List (String × Payload) → String → Option Payload
  | [], _ => none
  | (k, v) :: rest, key => if k = key then some v else lookupA rest key

/-- Cell access with the pandas convention that a missing cell reads as
null (NaN). -/
def getCell (r : Row) (c : String) : Payload :=
  (lookupA r c).getD .null

/-- Python dict assignment `d[k] = v`: replaces in place when the key is
present, appends otherwise. -/
def updateA : Row → String → Payload → Row
  | [], key, v => [(key, v)]
  | (k, w) :: rest, key, v =>
    if k = key then (k, v) :: rest else (k, w) :: updateA rest key v

/-- Keys of a payload map / row in order. -/
def keysA (m : List (String × Payload)) : List String := m.map Prod.fst

/-- Python truthiness of a payload, as used by `if symbol:` and
`content.get("preview")` checks. -/
def pyTruthy : Payload → Bool
  | .null => false
  | .bool b => b
  | .int n => n ≠ 0
  | .str s => s ≠ ""
  | .list l => !l.isEmpty
  | .tup l => !l.isEmpty
  | .map m => !m.isEmpty
  | .date _ => true

/-- `df.empty` in pandas: true when either axis has length zero. -/
def DF.isEmptyDF (d : DF) : Bool := d.rows.isEmpty || d.cols.isEmpty

/-- Column union in first-appearance order, the schema `pd.concat` and
`DataFrame(records)` give. -/
def colUnion (acc cs : List String) : List String :=
  acc ++ cs.filter (fun c => !acc.contains c)

/-- `pd.concat(frames, ignore_index=True)`: columns are the ordered
union, rows are concatenated (missing cells read as null). -/
def dfConcat (dfs : List DF) : DF :=
  { cols := dfs.foldl (fun acc d => colUnion acc d.cols) [],
    rows := (dfs.map DF.rows).flatten }

/-- `pd.DataFrame(records)` / `DataFrame.from_records(records)`: columns
are the union of the record keys in first-appearance order. -/
def dfOfRecords (records : List Row) : DF :=
  { cols := records.foldl (fun acc r => colUnion acc (keysA r)) [],
    rows := records }

/-- `df.rename(columns=m)`. -/
def renameDF (m : List (String × String)) (d : DF) : DF :=
  let sub := fun c => ((m.find? (fun p => p.1 = c)).map Prod.snd).getD c
  { cols := d.cols.map sub,
    rows := d.rows.map (fun r => r.map (fun p => (sub p.1, p.2))) }

/-- `df[c] = f(df[c])` column-wise: a no-op when the column is absent
(the sources only apply it to present columns). -/
def mapCol (c : String) (f : Payload → Payload) (d : DF) : DF :=
  if d.cols.contains c then
    { cols := d.cols, rows := d.rows.map (fun r => updateA r c (f (getCell r c))) }
  else d

/-- `df[c] = v` with a scalar: sets every row, appending the column when
new. -/
def setCol (c : String) (v : Payload) (d : DF) : DF :=
  { cols := if d.cols.contains c then d.cols else d.cols ++ [c],
    rows := d.rows.map (fun r => updateA r c v) }

/-- `df.drop(columns=[c])`. -/
def dropCol (c : String) (d : DF) : DF :=
  { cols := d.cols.filter (fun x => x ≠ c),
    rows := d.rows.map (fun r => r.filter (fun p => p.1 ≠ c)) }

/-- `df[keep]` where every name of `keep` is a column: rows are rebuilt
in the selected order. -/
def selectCols (keep : List String) (d : DF) : DF :=
  { cols := keep,
    rows := d.rows.map (fun r => keep.map (fun c => (c, getCell r c))) }

/-- `df.dropna(subset=[c])`. -/
def dropNa (c : String) (d : DF) : DF :=
  { cols := d.cols, rows := d.rows.filter (fun r => !pbeq (getCell r c) .null) }

/-- Prefix test on character lists. -/
def listPre : List Char → List Char → Bool
  | [], _ => true
  | _ :: _, [] => false
  | a :: as, b :: bs => a = b && listPre as bs

/-- Contiguous-substring test on character lists. -/
def listInf (needle : List Char) : List Char → Bool
  | [] => needle.isEmpty
  | c :: rest => listPre needle (c :: rest) || listInf needle rest

/-- Python `needle in hay` on strings. -/
def strContains (hay needle : String) : Bool :=
  listInf needle.toList hay.toList

/-- ASCII lowercasing of one character, written as an explicit table so
it evaluates inside the kernel. -/
def lowerChar : Char → Char
  | 'A' => 'a'
  | 'B' => 'b'
  | 'C' => 'c'
  | 'D' => 'd'
  | 'E' => 'e'
  | 'F' => 'f'
  | 'G' => 'g'
  | 'H' => 'h'
  | 'I' => 'i'
  | 'J' => 'j'
  | 'K' => 'k'
  | 'L' => 'l'
  | 'M' => 'm'
  | 'N' => 'n'
  | 'O' => 'o'
  | 'P' => 'p'
  | 'Q' => 'q'
  | 'R' => 'r'
  | 'S' => 's'
  | 'T' => 't'
  | 'U' => 'u'
  | 'V' => 'v'
  | 'W' => 'w'
  | 'X' => 'x'
  | 'Y' => 'y'
  | 'Z' => 'z'
  | c => c

/-- Case-insensitive substring test, `Series.str.contains(needle,
case=False)`: both sides lowercased. -/
def hasInfixCI (needle hay : String) : Bool :=
  listInf (needle.toList.map lowerChar) (hay.toList.map lowerChar)

/-- `str(value)` as `df.astype(str)` renders cells. Scalar cells render
faithfully; container cells are abstracted to fixed placeholder texts
rather than Python's recursive rendering of their contents (the
classification statements quantify over the row's stringified fields, so
none depends on what a container renders to), and a null cell becomes
the text of NaN. -/
def stringifyCell : Payload → String
  | .str s => s
  | .int n => toString n
  | .bool b => if b then "True" else "False"
  | .null => "nan"
  | .date d => toString d
  | .list _ => "[...]"
  | .tup _ => "(...)"
  | .map _ => "..."

/-! ## The Shape Classifier and Flattener (`_content_to_df`, ingestion.py) -/

/-- Python exception kinds the embedded code can raise. `.fuelErr` is an
artifact of the fuel-bounded model of the recursion; every theorem
supplies enough fuel for it not to occur. -/
inductive Err where
  | attrErr
  | typeErr
  | valErr
  | fuelErr
  | fnfErr
deriving DecidableEq

/-- The external parsing library calls, abstracted: `ast.literal_eval`
and `json.loads` (None models a parse exception), `pd.read_csv` on a
string buffer (None models a raise such as EmptyDataError/ParserError),
`pd.to_datetime` on a string key (None models a raise) and on a cell
with `errors="coerce"` (None models NaT), `pd.to_numeric` with
`errors="ignore"` (failure returns the input) and with `errors="coerce"`
(failure yields null/NaN). -/
structure Oracles where
  litEval : String → Option Payload
  jsonLoads : String → Option Payload
  readCsv : String → Option DF
  toDateKey : String → Option Nat
  toDateCell : Payload → Option Nat
  toNumIgnore : Payload → Payload
  toNumCoerce : Payload → Payload

/-- Split a string at the first occurrence of a separator,
`s.split(sep, 1)` when it succeeds. -/
def splitFirstAux (sep : List Char) : List Char → Option (List Char × List Char)
  | [] => none
  | c :: rest =>
    if listPre sep (c :: rest) then some ([], (c :: rest).drop sep.length)
    else
      match splitFirstAux sep rest with
      | some (pre, post) => some (c :: pre, post)
      | none => none

/-- `_strip_prefix` of ingestion.py: drop a numeric prefix such as
`"4. "` from a field name. -/
def stripNum (col : String) : String :=
  match splitFirstAux ". ".toList col.toList with
  | some (pre, post) =>
    let digits := pre.filter (fun c => c ≠ '.')
    if !digits.isEmpty && digits.all Char.isDigit then String.mk post else col
  | none => col

/-- Single-text-cell fallback frame, `pd.DataFrame({"text": [v]})`. -/
def textDF (v : Payload) : DF := ⟨["text"], [[("text", v)]]⟩

/-- Scalar fallback frame, `pd.DataFrame({"value": [v]})`. -/
def valueDF (v : Payload) : DF := ⟨["value"], [[("value", v)]]⟩

mutual

/-- Dotted-path expansion of one value for `pd.json_normalize`. -/
def flattenP (pre : String) (k : String) : Payload → Row
  | .map m => flattenPairs (pre ++ k ++ ".") m
  | v => [(pre ++ k, v)]

/-- Dotted-path expansion of a map's pairs for `pd.json_normalize`. -/
def flattenPairs (pre : String) : List (String × Payload) → Row
  | [] => []
  | (k, v) :: rest => flattenP pre k v ++ flattenPairs pre rest

end

/-- `pd.json_normalize(content)` as `_content_to_df` calls it: a map
gives one dotted-path-flattened row, a list of maps gives one row each
with the union of keys as schema, a list holding a non-map raises. -/
def jsonNormalize : Payload → Except Err DF
  | .map [] => .ok ⟨[], []⟩
  | .map m => .ok (dfOfRecords [flattenPairs "" m])
  | .list l =>
    if l.all (fun p => match p with | .map _ => true | _ => false) then
      .ok (dfOfRecords (l.map (fun p =>
        match p with | .map m => flattenPairs "" m | _ => [])))
    else .error .attrErr
  | _ => .error .typeErr

/-- One record of `_parse_time_series`: the date, the numeric-prefix-
stripped fields coerced by `pd.to_numeric(errors="ignore")`, then the
symbol tag when truthy. -/
def buildTsRec (o : Oracles) (symbol : Payload) (vals : List (String × Payload))
    (d : Nat) : Row :=
  let rec1 := vals.foldl (fun r p => updateA r (stripNum p.1) (o.toNumIgnore p.2))
    [("date", .date d)]
  if pyTruthy symbol then updateA rec1 "symbol" symbol else rec1

/-- `_parse_time_series(payload, meta)`: one row per timestamp key.
`meta.get` raises AttributeError when `meta` is not a map, `.items()`
raises when the payload or an entry value is not a map, and
`pd.to_datetime` raises on an unparseable timestamp key. -/
def parseTimeSeries (o : Oracles) (payload meta : Payload) : Except Err DF :=
  match meta with
  | .map mm =>
    let s2 := (lookupA mm "2. Symbol").getD .null
    let symbol := if pyTruthy s2 then s2 else (lookupA mm "1. Symbol").getD .null
    match payload with
    | .map entries =>
      match entries.mapM (fun p =>
        match o.toDateKey p.1 with
        | none => Except.error Err.valErr
        | some d =>
          match p.2 with
          | .map vals => Except.ok (buildTsRec o symbol vals d)
          | _ => Except.error Err.attrErr) with
      | .ok records => .ok (dfOfRecords records)
      | .error e => .error e
    | _ => .error .attrErr
  | _ => .error .attrErr

/-- `_parse_global_quote(payload)`: one row with numeric prefixes
stripped, adding `symbol` from the prefixed key when no bare key
resulted. -/
def parseGlobalQuote (payload : Payload) : Except Err DF :=
  match payload with
  | .map g =>
    let rec0 := g.foldl (fun r p => updateA r (stripNum p.1) p.2) []
    let rec1 :=
      if (lookupA rec0 "symbol").isNone && (lookupA g "01. symbol").isSome then
        updateA rec0 "symbol" ((lookupA g "01. symbol").getD .null)
      else rec0
    .ok (dfOfRecords [rec1])
  | _ => .error .attrErr

/-- The CSV-then-text tail of `_try_parse_text`: `pd.read_csv` on
success, the single-row text fallback when it raises. -/
def csvStep (o : Oracles) (s : String) : Except Err DF :=
  match o.readCsv s with
  | some df => .ok df
  | none => .ok (textDF (.str s))

/-- `_try_parse_text(text)` with the recursion into `_content_to_df`
abstracted as `recur`: try JSON (a recursion error propagates, since
only JSONDecodeError is caught there), then a Python literal (any
exception falls through), then CSV, then the text fallback.
`json.loads` on a non-string raises TypeError. -/
def tryParseTextF (recur : Payload → Except Err DF) (o : Oracles) :
    Payload → Except Err DF
  | .str s =>
    match o.jsonLoads s with
    | some p => recur p
    | none =>
      match o.litEval s with
      | some p =>
        match recur p with
        | .ok df => .ok df
        | .error _ => csvStep o s
      | none => csvStep o s
  | _ => .error .typeErr

/-- `_maybe_reparse_text_df(df)` with the recursion abstracted: when the
frame is exactly one row of a single `text` column, attempt one more
`ast.literal_eval` pass and reclassify; any failure returns the frame
unchanged. -/
def maybeReparseF (recur : Payload → Except Err DF) (o : Oracles) (df : DF) : DF :=
  if df.cols == ["text"] && df.rows.length == 1 then
    match getCell (df.rows.headD []) "text" with
    | .str s =>
      match o.litEval s with
      | some p =>
        match recur p with
        | .ok d2 => d2
        | .error _ => df
      | none => df
    | _ => df
  else df

/-- `_content_to_df(content)` of ingestion.py, fuel-bounded. The list
branch first tries `ast.literal_eval` on the leading text block and
recurses (an exception there, including one from the recursion, falls
back to `_try_parse_text`, whose result is dropped when pandas-empty —
`not f.empty`, so a zero-row or zero-column frame — and gets
the one extra reparse pass); a plain string goes through
`_try_parse_text`; maps dispatch on the preview wrapper, then a
Time Series key, then a Technical Analysis key, then Global Quote, then
generic `pd.json_normalize`; anything else is the scalar fallback. -/
def contentToDf (o : Oracles) : Nat → Payload → Except Err DF
  | 0, _ => .error .fuelErr
  | fuel + 1, content =>
    match content with
    | .list l =>
      match l with
      | .map m :: _ =>
        if (lookupA m "text").isSome then
          let txtP := (lookupA m "text").getD (.str "")
          let attempt1 : Except Err DF :=
            match txtP with
            | .str s =>
              match o.litEval s with
              | some p => contentToDf o fuel p
              | none => .error .valErr
            | _ => .error .valErr
          match attempt1 with
          | .ok df => .ok df
          | .error _ =>
            match tryParseTextF (fun p => contentToDf o fuel p) o txtP with
            | .error e => .error e
            | .ok f =>
              if f.isEmptyDF then
                .ok (maybeReparseF (fun p => contentToDf o fuel p) o (textDF txtP))
              else .ok (maybeReparseF (fun p => contentToDf o fuel p) o f)
        else jsonNormalize (.list l)
      | _ => jsonNormalize (.list l)
    | .map m =>
      if pyTruthy ((lookupA m "preview").getD .null)
          && pbeq ((lookupA m "data_type").getD .null) (.str "csv")
          && (lookupA m "sample_data").isSome then
        match (lookupA m "sample_data").getD .null with
        | .str s =>
          match o.readCsv s with
          | some df =>
            .ok (if (lookupA m "symbol").isSome then
                   setCol "symbol" ((lookupA m "symbol").getD .null) df
                 else df)
          | none => .ok (textDF (.str s))
        | v => .ok (textDF v)
      else
        match (keysA m).find? (fun k => strContains k "Time Series") with
        | some tsk =>
          parseTimeSeries o ((lookupA m tsk).getD .null)
            ((lookupA m "Meta Data").getD (.map []))
        | none =>
          match (keysA m).find? (fun k => strContains k "Technical Analysis") with
          | some tak =>
            parseTimeSeries o ((lookupA m tak).getD .null)
              ((lookupA m "Meta Data").getD (.map []))
          | none =>
            if (lookupA m "Global Quote").isSome then
              parseGlobalQuote ((lookupA m "Global Quote").getD .null)
            else jsonNormalize (.map m)
    | .str s => tryParseTextF (fun p => contentToDf o fuel p) o (.str s)
    | other => .ok (valueDF other)

/-- `_try_parse_text` tied to the fuel-bounded classifier. -/
def tryParseText (o : Oracles) (fuel : Nat) (p : Payload) : Except Err DF :=
  tryParseTextF (fun q => contentToDf o fuel q) o p

/-- `_maybe_reparse_text_df` tied to the fuel-bounded classifier. -/
def maybeReparse (o : Oracles) (fuel : Nat) (df : DF) : DF :=
  maybeReparseF (fun q => contentToDf o fuel q) o df

/-! ## The Partition Writer and resume checks (ingestion.py) -/

/-- A raw-partition file path relative to the raw data root: directory
segments and the file stem (the `.parquet` suffix is implied). The
writer's unqualified layout is `endpoint/ticker`, the periodized layout
is `endpoint/period/ticker`, indicators use `endpoint/global`. -/
structure RPath where
  dirs : List String
  stem : String
deriving DecidableEq

/-- `path.name` of a partition file. -/
def RPath.fileName (p : RPath) : String := p.stem ++ ".parquet"

/-- `path.parent.name`: the innermost directory (the raw root's own name
for a file sitting directly in it). -/
def RPath.parentName (p : RPath) : String := p.dirs.getLastD "raw_data"

/-- `path.parent.parent.name`. -/
def RPath.grandName (p : RPath) : String := p.dirs.dropLast.getLastD "raw_data"

/-- The on-disk raw partition tree as read by the model: each readable
parquet file with its frame. -/
abbrev FS := List (RPath × DF)

/-- Read one partition. -/
def readFS : FS → RPath → Option DF
  | [], _ => none
  | (q, d) :: rest, p => if q = p then some d else readFS rest p

/-- Python `cell == period` between an arbitrary cell and a string. -/
def cellEqStr (v : Payload) (s : String) : Bool :=
  match v with
  | .str t => t = s
  | _ => false

/-- One period's selection of `_write_split_by_period`:
`df[df["period_type"] == period].drop(columns=["period_type"])`. -/
def periodSub (df : DF) (period : String) : DF :=
  dropCol "period_type"
    { cols := df.cols,
      rows := df.rows.filter (fun r => cellEqStr (getCell r "period_type") period) }

/-- `_write_split_by_period(df, base_dir, endpoint, ticker)`, modelled
as the list of (path, frame) writes it performs in order. Without a
`period_type` column one unqualified partition is written; otherwise the
loop visits exactly the two period values `annual` and `quarterly`,
selects each period's rows, drops the discriminator column, and skips a
period whose selection is pandas-empty (`sub.empty`: zero rows, or zero
columns once the discriminator is dropped). -/
def write_split_by_period (df : DF) (endpoint ticker : String) : List (RPath × DF) :=
  if !df.cols.contains "period_type" then
    [(⟨[endpoint], ticker⟩, df)]
  else
    ["annual", "quarterly"].filterMap (fun period =>
      let sub := periodSub df period
      if sub.isEmptyDF then none
      else some (⟨[endpoint, period], ticker⟩, sub))

/-- `_all_period_files_exist(base_dir, endpoint, ticker)`: both the
annual and the quarterly partition must be present and non-empty
(`not df.empty` in pandas terms). -/
def all_period_files_exist (fs : FS) (endpoint ticker : String) : Bool :=
  match readFS fs ⟨[endpoint, "annual"], ticker⟩,
      readFS fs ⟨[endpoint, "quarterly"], ticker⟩ with
  | some a, some q => !a.isEmptyDF && !q.isEmptyDF
  | _, _ => false

/-- The resume check `run_ingestion` performs inline for an unqualified
partition: skip only when the file exists and reads back non-empty. -/
def file_exists_nonempty (fs : FS) (p : RPath) : Bool :=
  match readFS fs p with
  | some d => !d.isEmptyDF
  | none => false

/-- The Orchestrator's skip decision for a periodized endpoint
(run_ingestion): `resume and _all_period_files_exist(...)`. -/
def resume_skip_periodized (resume : Bool) (fs : FS) (endpoint ticker : String) :
    Bool :=
  resume && all_period_files_exist fs endpoint ticker

/-- The Orchestrator's skip decision for an unqualified endpoint
(run_ingestion): `resume and out_path.exists()` and the read-back frame
is non-empty. -/
def resume_skip_single (resume : Bool) (fs : FS) (endpoint ticker : String) : Bool :=
  resume && file_exists_nonempty fs ⟨[endpoint], ticker⟩

/-! ## The pre-write date filter (`_filter_date`, ingestion.py) -/

/-- `pd.to_datetime(cell).dt.date` with unconvertible values as NaT. -/
def dateCoerce (o : Oracles) (v : Payload) : Payload :=
  match o.toDateCell v with
  | some d => .date d
  | none => .null

/-- Is a converted cell a date inside the window?  NaT comparisons are
false in pandas, so a null is never in range. -/
def inRangeCell (v : Payload) (start stop : Nat) : Bool :=
  match v with
  | .date d => start ≤ d && d ≤ stop
  | _ => false

/-- One cell of `pd.to_datetime(df[col]).dt.date` under the default
`errors="raise"` policy of `_filter_date`: a missing value becomes NaT
silently, any other value the converter cannot handle raises. -/
def dateCoerceE (o : Oracles) (v : Payload) : Except Err Payload :=
  match v with
  | .null => .ok .null
  | v =>
    match o.toDateCell v with
    | some d => .ok (.date d)
    | none => .error .valErr

/-- `df[col] = pd.to_datetime(df[col]).dt.date` across the rows: the
whole column conversion raises as soon as one cell does. -/
def coerceColE (o : Oracles) (c : String) : List Row → Except Err (List Row)
  | [] => .ok []
  | r :: rest =>
    match dateCoerceE o (getCell r c) with
    | .error e => .error e
    | .ok v =>
      match coerceColE o c rest with
      | .error e => .error e
      | .ok rs => .ok (updateA r c v :: rs)

/-- `_filter_date(df, start, end)`: restrict by the first present of
date/timestamp/datetime after converting that column with
`pd.to_datetime` (default `errors="raise"`, so an unconvertible cell
propagates as an exception to the caller); keep the whole converted
frame when the restriction would drop every row; a frame with none of
the columns passes through unchanged. -/
def filter_date (o : Oracles) (df : DF) (start stop : Nat) : Except Err DF :=
  match ["date", "timestamp", "datetime"].find? (fun c => df.cols.contains c) with
  | some c =>
    match coerceColE o c df.rows with
    | .error e => .error e
    | .ok rows2 =>
      let kept := rows2.filter (fun r => inRangeCell (getCell r c) start stop)
      if kept.isEmpty then .ok { cols := df.cols, rows := rows2 }
      else .ok { cols := df.cols, rows := kept }
  | none => .ok df

/-! ## The Aggregation Engine (transform.py) -/

/-- `_PRICE_FIELDS` of transform.py. -/
def PRICE_FIELDS : List (String × String) :=
  [("1. open", "open"), ("2. high", "high"), ("3. low", "low"),
   ("4. close", "close"), ("5. adjusted close", "adjusted_close"),
   ("6. volume", "volume"), ("7. dividend amount", "dividend_amount"),
   ("8. split coefficient", "split_coefficient")]

/-- `_PRICE_COLS` of transform.py. -/
def PRICE_COLS : List String :=
  ["date", "open", "high", "low", "close", "adjusted_close", "volume",
   "dividend_amount", "split_coefficient"]

/-- `_WIDE_PREFIXES` of transform.py. -/
def WIDE_PREFIXES : List String :=
  ["Time Series (Daily)", "Weekly Adjusted Time Series"]

/-- The numeric columns `_normalize_price` coerces. -/
def NUMERIC_PRICE_COLS : List String :=
  ["open", "high", "low", "close", "adjusted_close", "volume",
   "dividend_amount", "split_coefficient"]

/-- `_infer_date_column(df)`. -/
def infer_date_column (df : DF) : Option String :=
  ["date", "Date", "timestamp", "datetime"].find? (fun c => df.cols.contains c)

/-- Match one column name against the wide-format pattern
`^<prefix>\.(\d-digit date)\.(\d+)\.\s(.+)$` used by
`_unpivot_alpha_vantage_timeseries`, yielding (date, number, label). -/
def parseWideCol (pre : String) (col : String) : Option (String × String × String) :=
  let pl := (pre ++ ".").toList
  let cl := col.toList
  if listPre pl cl then
    let r1 := cl.drop pl.length
    let dateCs := r1.take 10
    let rest1 := r1.drop 10
    if dateCs.length = 10
        && (dateCs.take 4).all Char.isDigit
        && dateCs.getD 4 ' ' = '-'
        && ((dateCs.drop 5).take 2).all Char.isDigit
        && dateCs.getD 7 ' ' = '-'
        && ((dateCs.drop 8).take 2).all Char.isDigit then
      match rest1 with
      | '.' :: r2 =>
        let num := r2.takeWhile Char.isDigit
        let r3 := r2.drop num.length
        if num.isEmpty then none
        else
          match r3 with
          | '.' :: ws :: label =>
            if ws.isWhitespace && !label.isEmpty then
              some (String.mk dateCs, String.mk num, String.mk label)
            else none
          | _ => none
      | _ => none
    else none
  else none

/-- `grouped.setdefault(date_str, {})[field] = value`: insertion-ordered
grouping of wide cells by date. -/
def updateG : List (String × Row) → String → String → Payload → List (String × Row)
  | [], dateS, field, v => [(dateS, [(field, v)])]
  | (d0, r0) :: rest, dateS, field, v =>
    if d0 = dateS then (d0, updateA r0 field v) :: rest
    else (d0, r0) :: updateG rest dateS field v

/-- `_unpivot_alpha_vantage_timeseries(df, ticker)`: detect a wide frame
whose first row embeds every field in the column name, regroup the cells
of that first row by date, and tag each record with its date string and
the ticker. -/
def unpivotWide (df : DF) (ticker : String) : Option DF :=
  if df.isEmptyDF then none
  else
    match WIDE_PREFIXES.find? (fun p =>
        df.cols.any (fun c => listPre (p ++ ".").toList c.toList)) with
    | none => none
    | some pre =>
      let row := df.rows.headD []
      let grouped := df.cols.foldl (fun acc col =>
        match parseWideCol pre col with
        | none => acc
        | some (dateS, num, label) =>
          match (PRICE_FIELDS.find? (fun q => q.1 = (num ++ ". " ++ label).trim)).map
              Prod.snd with
          | none => acc
          | some field => updateG acc dateS field (getCell row col)) []
      if grouped.isEmpty then none
      else
        some (dfOfRecords (grouped.map (fun g =>
          updateA (updateA g.2 "date" (.str g.1)) "ticker" (.str ticker))))

/-- `_normalize_price(df, ticker)`: unpivot the wide form or align the
date column, normalize the spaced column names, tag the ticker, coerce
the date (`errors="coerce"`, so failures become null) and the numeric
fields, and keep only the expected price columns that are present.
With an empty column list the source would raise IndexError at
`df.columns[0]`; `transform_raw_to_final` never passes such a frame, and
the model leaves the frame unrenamed there. -/
def normalize_price (o : Oracles) (df : DF) (ticker : String) : DF :=
  let base :=
    match unpivotWide df ticker with
    | some w => w
    | none =>
      let df1 :=
        match infer_date_column df with
        | some c => renameDF [(c, "date")] df
        | none => df
      if df1.cols.contains "date" then df1
      else
        match df1.cols with
        | [] => df1
        | c0 :: _ => renameDF [(c0, "date")] df1
  let r1 := renameDF
    [("adjusted close", "adjusted_close"), ("dividend amount", "dividend_amount"),
     ("split coefficient", "split_coefficient")] base
  let r2 := setCol "ticker" (.str ticker) r1
  let r3 := mapCol "date" (dateCoerce o) r2
  let r4 := NUMERIC_PRICE_COLS.foldl (fun d c => mapCol c o.toNumCoerce d) r3
  selectCols ((PRICE_COLS ++ ["ticker"]).filter (fun c => r4.cols.contains c)) r4

/-- The fundamentals endpoint set of transform_raw_to_final. -/
def FUNDAMENTALS_ENDPOINTS : List String :=
  ["INCOME_STATEMENT", "BALANCE_SHEET", "CASH_FLOW", "EARNINGS",
   "EARNINGS_ESTIMATES", "DIVIDENDS", "SPLITS"]

/-- The economic indicator endpoint set of transform_raw_to_final. -/
def ECON_ENDPOINTS : List String :=
  ["REAL_GDP", "REAL_GDP_PER_CAPITA", "TREASURY_YIELD", "FEDERAL_FUNDS_RATE",
   "CPI", "INFLATION", "RETAIL_SALES", "DURABLES", "UNEMPLOYMENT",
   "NONFARM_PAYROLL"]

/-- `path.name.startswith("wrds_")`. -/
def isWrds (p : RPath) : Bool := listPre "wrds_".toList p.fileName.toList

/-- The files the transform loop does not skip outright: not WRDS
artifacts and not empty frames. -/
def activeFiles (files : FS) : FS :=
  files.filter (fun f => !isWrds f.1 && !f.2.isEmptyDF)

/-- The price bucket of one time-series directory, in file order. -/
def priceFrames (o : Oracles) (endpoint : String) (files : FS) : List DF :=
  (activeFiles files).filterMap (fun f =>
    if f.1.parentName = endpoint then some (normalize_price o f.2 f.1.stem)
    else none)

/-- The per-file fundamentals tagging of transform_raw_to_final: derive
the period from the grandparent (or, dead in the guarded branch, the
parent) directory, the statement from whichever of grandparent/parent is
a fundamentals endpoint, and add ticker, statement and period columns. -/
def fundTag (f : RPath × DF) : String × DF :=
  let parent := f.1.parentName
  let grand := f.1.grandName
  let period : Option String :=
    if grand = "annual" || grand = "quarterly" then some grand
    else if parent = "annual" || parent = "quarterly" then some parent
    else none
  let statement := if FUNDAMENTALS_ENDPOINTS.contains grand then grand else parent
  let d1 := setCol "ticker" (.str f.1.stem) f.2
  let d2 := setCol "statement" (.str statement) d1
  let d3 :=
    match period with
    | some per => setCol "period_type" (.str per) d2
    | none => d2
  (statement, d3)

/-- The tagged fundamentals frames in file order. -/
def fundPairs (files : FS) : List (String × DF) :=
  (activeFiles files).filterMap (fun f =>
    if FUNDAMENTALS_ENDPOINTS.contains f.1.parentName then some (fundTag f)
    else none)

/-- `fundamentals_map.setdefault(statement, []).append(df)`. -/
def insertFund (acc : List (String × List DF)) (s : String) (d : DF) :
    List (String × List DF) :=
  match acc with
  | [] => [(s, [d])]
  | (t, ds) :: rest =>
    if t = s then (t, ds ++ [d]) :: rest else (t, ds) :: insertFund rest s d

/-- The fundamentals buckets grouped by statement in first-appearance
order. -/
def groupFund (pairs : List (String × DF)) : List (String × List DF) :=
  pairs.foldl (fun acc p => insertFund acc p.1 p.2) []

/-- The economic-indicator bucket, tagged with the indicator name. -/
def econFrames (files : FS) : List DF :=
  (activeFiles files).filterMap (fun f =>
    if ECON_ENDPOINTS.contains f.1.parentName then
      some (setCol "indicator" (.str f.1.parentName) f.2)
    else none)

/-- The company-overview bucket, tagged with the ticker. -/
def overviewFrames (files : FS) : List DF :=
  (activeFiles files).filterMap (fun f =>
    if f.1.parentName = "COMPANY_OVERVIEW" then
      some (setCol "ticker" (.str f.1.stem) f.2)
    else none)

/-- Drop the all-error `Information` column when present. -/
def dropInformation (d : DF) : DF :=
  if d.cols.contains "Information" then dropCol "Information" d else d

/-- The noise columns the company-overview bucket drops: literally the
error field, or entirely empty across all rows. -/
def overviewDropCols (d : DF) : List String :=
  d.cols.filter (fun c =>
    c = "Error Message" || d.rows.all (fun r => pbeq (getCell r c) .null))

/-- Drop a list of columns. -/
def dropColsL (cs : List String) (d : DF) : DF :=
  cs.foldl (fun acc c => dropCol c acc) d

/-- `transform_raw_to_final()` over a raw tree given as a file list:
FileNotFoundError when the tree holds no parquet files, the five bucket
pipelines otherwise, ValueError when every bucket stayed empty. Output
entries are keyed by domain-table name in the insertion order of the
source. -/
def transform_raw_to_final (o : Oracles) (files : FS) :
    Except Err (List (String × DF)) :=
  if files.isEmpty then .error .fnfErr
  else
    let pd := priceFrames o "TIME_SERIES_DAILY_ADJUSTED" files
    let pw := priceFrames o "TIME_SERIES_WEEKLY_ADJUSTED" files
    let fund := groupFund (fundPairs files)
    let ec := econFrames files
    let co := overviewFrames files
    let out1 :=
      if !pd.isEmpty then [("price_daily", dropNa "date" (dfConcat pd))] else []
    let out2 :=
      if !pw.isEmpty then [("price_weekly", dropNa "date" (dfConcat pw))] else []
    let out3 := fund.map (fun g =>
      ("fundamentals_" ++ g.1.toLower, dropInformation (dfConcat g.2)))
    let out4 :=
      if !ec.isEmpty then [("economic_indicators", dfConcat ec)] else []
    let out5 :=
      if !co.isEmpty then
        let cdf := dfConcat co
        [("company_overview", dropColsL (overviewDropCols cdf) cdf)]
      else []
    let outputs := out1 ++ out2 ++ out3 ++ out4 ++ out5
    if outputs.isEmpty then .error .valErr else .ok outputs

/-! ## Failure Triage (failure_utils.py) -/

/-- `REST_FUNCTION_MAP` of ingestion.py. -/
def REST_FUNCTION_MAP : List (String × String) :=
  [("COMPANY_OVERVIEW", "OVERVIEW"), ("INCOME_STATEMENT", "INCOME_STATEMENT"),
   ("BALANCE_SHEET", "BALANCE_SHEET"), ("CASH_FLOW", "CASH_FLOW"),
   ("EARNINGS", "EARNINGS"), ("EARNINGS_ESTIMATES", "EARNINGS_ESTIMATES"),
   ("DIVIDENDS", "DIVIDENDS"), ("SPLITS", "SPLITS"),
   ("SYMBOL_SEARCH", "SYMBOL_SEARCH")]

/-- `REST_FUNCTION_MAP.get(endpoint, endpoint)`. -/
def restFunction (e : String) : String :=
  ((REST_FUNCTION_MAP.find? (fun p => p.1 = e)).map Prod.snd).getD e

/-- One cell matches when its string form contains "invalid api call"
case-insensitively. -/
def cellMatchesInvalid (v : Payload) : Bool :=
  hasInfixCI "invalid api call" (stringifyCell v)

/-- One row matches when any of the frame's columns matches, the per-row
mask of the failure scanners. -/
def rowHasInvalid (cols : List String) (r : Row) : Bool :=
  cols.any (fun c => cellMatchesInvalid (getCell r c))

/-- Whole-frame match, `mask.any().any()` of export_all_failures. -/
def dfHasInvalid (d : DF) : Bool := d.rows.any (rowHasInvalid d.cols)

/-- `failures = df.loc[mask]` of export_fundamental_failures and
export_company_overview_failures: the rows the final-dataset scanners
classify as failures. -/
def failure_rows (d : DF) : List Row := d.rows.filter (rowHasInvalid d.cols)

/-- The suggested REST call of the failure exporters. -/
def mkApiUrl (fn ticker : String) : String :=
  "https://www.alphavantage.co/query?function=" ++ fn ++ "&symbol=" ++ ticker ++
    "&apikey=YOUR_KEY"

/-- One failure-worklist record of export_all_failures. -/
structure FailRec where
  ticker : String
  function : String
  path : RPath
  api_url : String
  error_sample : String
deriving DecidableEq

/-- The endpoint of a raw partition as export_all_failures recovers it:
the parent directory, or the grandparent for a periodized layout. -/
def rawEndpoint (p : RPath) : String :=
  if p.parentName = "annual" || p.parentName = "quarterly" then p.grandName
  else p.parentName

/-- The record export_all_failures emits for one raw file, none when the
file is skipped (WRDS artifact, empty, or no matching cell). -/
def failRecOf (f : RPath × DF) : Option FailRec :=
  if isWrds f.1 then none
  else if f.2.isEmptyDF then none
  else if !dfHasInvalid f.2 then none
  else
    some { ticker := f.1.stem,
           function := rawEndpoint f.1,
           path := f.1,
           api_url := mkApiUrl (restFunction (rawEndpoint f.1)) f.1.stem,
           error_sample :=
             stringifyCell (getCell (f.2.rows.headD []) (f.2.cols.headD "")) }

/-- `export_all_failures` over the raw tree: one record per matching
file, in tree order. -/
def export_all_failures (files : FS) : List FailRec := files.filterMap failRecOf

/-! ## Concrete oracle instances for the closed theorems -/

/-- The value of a digit string. -/
def digitsToNat (cs : List Char) : Nat :=
  cs.foldl (fun acc c => acc * 10 + (c.toNat - 48)) 0

/-- A concrete fragment of `pd.to_datetime`: ISO `yyyy-mm-dd` strings,
encoded as the number yyyymmdd. -/
def isoDate (s : String) : Option Nat :=
  match s.toList with
  | [y1, y2, y3, y4, '-', m1, m2, '-', d1, d2] =>
    if [y1, y2, y3, y4, m1, m2, d1, d2].all Char.isDigit then
      some (digitsToNat [y1, y2, y3, y4] * 10000 + digitsToNat [m1, m2] * 100 +
        digitsToNat [d1, d2])
    else none
  | _ => none

/-- A concrete fragment of `pd.to_numeric`: plain digit strings. -/
def intOfDigits (s : String) : Option Int :=
  let cs := s.toList
  if !cs.isEmpty && cs.all Char.isDigit then some (Int.ofNat (digitsToNat cs))
  else none

/-- A concrete oracle assignment for the closed theorems: the three text
parsers fail on every input (none of the texts those theorems touch is
valid JSON, a valid Python literal, or parseable CSV), to_datetime
parses ISO date strings, to_numeric parses digit strings. -/
def pandasOracles : Oracles where
  litEval := fun _ => none
  jsonLoads := fun _ => none
  readCsv := fun _ => none
  toDateKey := isoDate
  toDateCell := fun v =>
    match v with
    | .str s => isoDate s
    | .date d => some d
    | _ => none
  toNumIgnore := fun v =>
    match v with
    | .str s => (match intOfDigits s with | some n => .int n | none => .str s)
    | v => v
  toNumCoerce := fun v =>
    match v with
    | .str s => (match intOfDigits s with | some n => .int n | none => .null)
    | .int n => .int n
    | .date d => .date d
    | _ => .null

/-! ## Small lemmas about the row and frame operations -/

theorem cellEqStr_iff (v : Payload) (s : String) :
    cellEqStr v s = true ↔ v = .str s := by
  cases v <;> simp [cellEqStr]

theorem getCell_updateA_self (r : Row) (k : String) (v : Payload) :
    getCell (updateA r k v) k = v := by
  induction r with
  | nil => simp [updateA, getCell, lookupA]
  | cons p rest ih =>
    obtain ⟨a, w⟩ := p
    by_cases h : a = k
    · subst h; simp [updateA, getCell, lookupA]
    · simp only [updateA, if_neg h, getCell, lookupA]
      simpa [getCell] using ih

theorem getCell_updateA_ne (r : Row) (k c : String) (v : Payload) (h : k ≠ c) :
    getCell (updateA r k v) c = getCell r c := by
  induction r with
  | nil => simp [updateA, getCell, lookupA, h]
  | cons p rest ih =>
    obtain ⟨a, w⟩ := p
    by_cases ha : a = k
    · subst ha; simp [updateA, getCell, lookupA, h]
    · by_cases hc : a = c
      · subst hc; simp [updateA, ha, getCell, lookupA]
      · simp only [updateA, if_neg ha, getCell, lookupA, if_neg hc]
        simpa [getCell] using ih

/-- Generic emptiness conversion. -/
theorem isEmpty_false_of_ne {α : Type} (l : List α) (h : l ≠ []) :
    l.isEmpty = false := by
  cases l with
  | nil => exact absurd rfl h
  | cons x xs => rfl

/-- Generic emptiness conversion. -/
theorem isEmpty_true_of_eq {α : Type} (l : List α) (h : l = []) :
    l.isEmpty = true := by
  rw [h]; rfl

/-- Normal form of the period-splitting write when the discriminator
column is present: at most one annual write followed by at most one
quarterly write. -/
theorem write_split_cols_present (df : DF) (endpoint ticker : String)
    (hcol : df.cols.contains "period_type" = true) :
    write_split_by_period df endpoint ticker =
      (if (periodSub df "annual").isEmptyDF then []
       else [(⟨[endpoint, "annual"], ticker⟩, periodSub df "annual")]) ++
      (if (periodSub df "quarterly").isEmptyDF then []
       else [(⟨[endpoint, "quarterly"], ticker⟩, periodSub df "quarterly")]) := by
  by_cases ha : (periodSub df "annual").isEmptyDF <;>
    by_cases hq : (periodSub df "quarterly").isEmptyDF <;>
      simp only [write_split_by_period, hcol, Bool.not_true, Bool.false_eq_true,
        if_false, List.filterMap_cons, List.filterMap_nil, ha, hq, if_true,
        Bool.true_eq_false, ite_true, ite_false, List.nil_append,
        List.singleton_append, List.append_nil]

/-! ## Claim C9 -/

/-- C9: for a row set with a `period_type` column, the period-splitting
write touches only the two fixed period partitions (in particular never
the unqualified path), and every stored row originates from a row whose
`period_type` is `annual` or `quarterly` with the discriminator column
removed — so a row with any other period value is written to no
partition at all. -/
theorem c9_unknown_period_rows_discarded (df : DF) (endpoint ticker : String)
    (hcol : df.cols.contains "period_type" = true) :
    ∀ w ∈ write_split_by_period df endpoint ticker,
      (w.1 = ⟨[endpoint, "annual"], ticker⟩ ∨
        w.1 = ⟨[endpoint, "quarterly"], ticker⟩) ∧
      w.1 ≠ ⟨[endpoint], ticker⟩ ∧
      ∀ r ∈ w.2.rows, ∃ r0 ∈ df.rows,
        (getCell r0 "period_type" = .str "annual" ∨
          getCell r0 "period_type" = .str "quarterly") ∧
        r = r0.filter (fun p => p.1 ≠ "period_type") := by
  intro w hw
  rw [write_split_cols_present df endpoint ticker hcol] at hw
  have main : ∀ period, period = "annual" ∨ period = "quarterly" →
      w = (⟨[endpoint, period], ticker⟩, periodSub df period) →
      (w.1 = ⟨[endpoint, "annual"], ticker⟩ ∨
        w.1 = ⟨[endpoint, "quarterly"], ticker⟩) ∧
      w.1 ≠ ⟨[endpoint], ticker⟩ ∧
      ∀ r ∈ w.2.rows, ∃ r0 ∈ df.rows,
        (getCell r0 "period_type" = .str "annual" ∨
          getCell r0 "period_type" = .str "quarterly") ∧
        r = r0.filter (fun p => p.1 ≠ "period_type") := by
    intro period hper hwp
    subst hwp
    refine ⟨?_, ?_, ?_⟩
    · rcases hper with h | h <;> subst h <;> simp
    · rcases hper with h | h <;> subst h <;> simp
    · intro r hr
      simp only [periodSub, dropCol, List.mem_map] at hr
      obtain ⟨r0, hr0, hrq⟩ := hr
      rw [List.mem_filter] at hr0
      refine ⟨r0, hr0.1, ?_, hrq.symm⟩
      have := (cellEqStr_iff (getCell r0 "period_type") period).mp hr0.2
      rcases hper with h | h <;> subst h
      · exact Or.inl this
      · exact Or.inr this
  rcases List.mem_append.mp hw with h | h
  · by_cases ha : (periodSub df "annual").isEmptyDF
    · rw [if_pos ha] at h; cases h
    · rw [if_neg ha] at h
      rcases List.mem_singleton.mp h with h2
      exact main "annual" (Or.inl rfl) h2
  · by_cases hq : (periodSub df "quarterly").isEmptyDF
    · rw [if_pos hq] at h; cases h
    · rw [if_neg hq] at h
      rcases List.mem_singleton.mp h with h2
      exact main "quarterly" (Or.inr rfl) h2

/-- Witness for C9: the theorem applied to a concrete frame holding
annual, semiannual and quarterly rows, at its annual write. -/
theorem c9_unknown_period_rows_discarded_witness :
    ((⟨["EARNINGS", "annual"], "T"⟩ : RPath) = ⟨["EARNINGS", "annual"], "T"⟩ ∨
      (⟨["EARNINGS", "annual"], "T"⟩ : RPath) = ⟨["EARNINGS", "quarterly"], "T"⟩) ∧
    (⟨["EARNINGS", "annual"], "T"⟩ : RPath) ≠ ⟨["EARNINGS"], "T"⟩ ∧
    (∀ r ∈ (⟨["a"], [[("a", Payload.int 1)]]⟩ : DF).rows,
      ∃ r0 ∈ [[("a", Payload.int 1), ("period_type", Payload.str "annual")],
              [("a", Payload.int 2), ("period_type", Payload.str "semiannual")],
              [("a", Payload.int 3), ("period_type", Payload.str "quarterly")]],
        (getCell r0 "period_type" = .str "annual" ∨
          getCell r0 "period_type" = .str "quarterly") ∧
        r = r0.filter (fun p => p.1 ≠ "period_type")) :=
  c9_unknown_period_rows_discarded
    ⟨["a", "period_type"],
      [[("a", .int 1), ("period_type", .str "annual")],
       [("a", .int 2), ("period_type", .str "semiannual")],
       [("a", .int 3), ("period_type", .str "quarterly")]]⟩
    "EARNINGS" "T" (by decide)
    (⟨["EARNINGS", "annual"], "T"⟩, ⟨["a"], [[("a", .int 1)]]⟩) (by decide)

/-! ## Claim C3 -/

/-- The C3 counterexample frame: one row whose `period_type` value is
neither `annual` nor `quarterly`. -/
def c3df : DF :=
  ⟨["a", "period_type"], [[("a", .int 1), ("period_type", .str "semiannual")]]⟩

/-- C3 counterexample: `semiannual` is an observed period value of a row
set carrying a `period_type` column, yet the writer performs no write at
all — in particular no partition is written under the period-qualified
path for that observed value, refuting "one partition per observed
period value". -/
theorem c3_counterexample :
    c3df.cols.contains "period_type" = true ∧
    getCell (c3df.rows.headD []) "period_type" = .str "semiannual" ∧
    write_split_by_period c3df "EARNINGS" "T" = [] :=
  ⟨by decide, by decide, by decide⟩

/-- C3 amended: the writer splits only across the two fixed period
values. Without a `period_type` column one unqualified partition holds
the rows unchanged; with the column, for each of `annual` and
`quarterly` whose selection is non-empty in the pandas sense (at least
one row and, once the discriminator is dropped, at least one column),
re-reading the period partition returns exactly the original rows of
that period minus the discriminator column, and a period whose
selection is pandas-empty — no rows, or no columns besides the
discriminator — gets no partition. -/
theorem c3_amended_period_round_trip (df : DF) (endpoint ticker : String) :
    (df.cols.contains "period_type" = false →
      write_split_by_period df endpoint ticker = [(⟨[endpoint], ticker⟩, df)]) ∧
    (df.cols.contains "period_type" = true →
      ∀ period, period = "annual" ∨ period = "quarterly" →
        ((periodSub df period).isEmptyDF = false →
          readFS (write_split_by_period df endpoint ticker)
              ⟨[endpoint, period], ticker⟩ =
            some ⟨df.cols.filter (fun x => x ≠ "period_type"),
              (df.rows.filter
                  (fun r => cellEqStr (getCell r "period_type") period)).map
                (fun r => r.filter (fun p => p.1 ≠ "period_type"))⟩) ∧
        ((periodSub df period).isEmptyDF = true →
          readFS (write_split_by_period df endpoint ticker)
              ⟨[endpoint, period], ticker⟩ = none)) := by
  constructor
  · intro h
    simp only [write_split_by_period, h, Bool.not_false, if_true, ite_true]
  · intro h period hper
    rw [write_split_cols_present df endpoint ticker h]
    have hpaths : (⟨[endpoint, "annual"], ticker⟩ : RPath) ≠
        ⟨[endpoint, "quarterly"], ticker⟩ := by
      intro hcontra
      have h2 := congrArg RPath.dirs hcontra
      simp at h2
    have hpaths2 : (⟨[endpoint, "quarterly"], ticker⟩ : RPath) ≠
        ⟨[endpoint, "annual"], ticker⟩ := fun hc => hpaths hc.symm
    rcases hper with hp | hp <;> subst hp
    · constructor
      · intro hne
        by_cases hq : (periodSub df "quarterly").isEmptyDF <;>
          · simp only [hne, hq]
            simp [readFS, periodSub, dropCol]
      · intro hnil
        by_cases hq : (periodSub df "quarterly").isEmptyDF <;>
          · simp only [hnil, hq]
            simp [readFS, hpaths2, periodSub, dropCol]
    · constructor
      · intro hne
        by_cases ha : (periodSub df "annual").isEmptyDF <;>
          · simp only [ha, hne]
            simp [readFS, hpaths, periodSub, dropCol]
      · intro hnil
        by_cases ha : (periodSub df "annual").isEmptyDF <;>
          · simp only [ha, hnil]
            simp [readFS, hpaths, periodSub, dropCol]

/-! ## Claim C4 -/

/-- C4: the resume existence checks. The unqualified check is true
exactly when the partition is present and holds at least one row (a
present-but-empty partition reads as false and is retried); the
periodized check is true exactly when both the annual and the quarterly
partition are present and non-empty; and with resume enabled the
Orchestrator's skip decisions equal exactly these checks. -/
theorem c4_resume_existence_checks (fs : FS) (endpoint ticker : String) :
    (∀ p d, readFS fs p = some d → d.rows = [] →
      file_exists_nonempty fs p = false) ∧
    (∀ a, readFS fs ⟨[endpoint, "annual"], ticker⟩ = some a → a.rows = [] →
      all_period_files_exist fs endpoint ticker = false) ∧
    (all_period_files_exist fs endpoint ticker = true ↔
      ((∃ a, readFS fs ⟨[endpoint, "annual"], ticker⟩ = some a ∧
          a.isEmptyDF = false) ∧
        (∃ q, readFS fs ⟨[endpoint, "quarterly"], ticker⟩ = some q ∧
          q.isEmptyDF = false))) ∧
    (∀ p, file_exists_nonempty fs p = true ↔
      ∃ d, readFS fs p = some d ∧ d.isEmptyDF = false) ∧
    (∀ resume, resume_skip_periodized resume fs endpoint ticker = true ↔
      resume = true ∧ all_period_files_exist fs endpoint ticker = true) ∧
    (∀ resume, resume_skip_single resume fs endpoint ticker = true ↔
      resume = true ∧ file_exists_nonempty fs ⟨[endpoint], ticker⟩ = true) := by
  have hrowsEmpty : ∀ d : DF, d.rows = [] → d.isEmptyDF = true := by
    intro d h
    simp [DF.isEmptyDF, h]
  refine ⟨?_, ?_, ?_, ?_, ?_, ?_⟩
  · intro p d hread hnil
    simp [file_exists_nonempty, hread, hrowsEmpty d hnil]
  · intro a hread hnil
    unfold all_period_files_exist
    rw [hread]
    cases readFS fs ⟨[endpoint, "quarterly"], ticker⟩ <;>
      simp [hrowsEmpty a hnil]
  · unfold all_period_files_exist
    cases h1 : readFS fs ⟨[endpoint, "annual"], ticker⟩ with
    | none => simp
    | some a =>
      cases h2 : readFS fs ⟨[endpoint, "quarterly"], ticker⟩ with
      | none => simp
      | some q =>
        constructor
        · intro h
          have h3 : a.isEmptyDF = false ∧ q.isEmptyDF = false := by
            simpa using h
          exact ⟨⟨a, rfl, h3.1⟩, ⟨q, rfl, h3.2⟩⟩
        · rintro ⟨⟨a2, ha2, hane⟩, ⟨q2, hq2, hqne⟩⟩
          obtain rfl : a = a2 := by injection ha2
          obtain rfl : q = q2 := by injection hq2
          simp [hane, hqne]
  · intro p
    unfold file_exists_nonempty
    cases h1 : readFS fs p with
    | none => simp
    | some d =>
      constructor
      · intro h
        have h2 : d.isEmptyDF = false := by simpa using h
        exact ⟨d, rfl, h2⟩
      · rintro ⟨d2, hd2, hdne⟩
        obtain rfl : d = d2 := by injection hd2
        simp [hdne]
  · intro resume
    simp [resume_skip_periodized]
  · intro resume
    simp [resume_skip_single]

/-- Witness for C4: not needed for hypotheses (the statement has none),
kept as a concrete instantiation at a tree whose annual partition is
present but empty, whose quarterly partition is non-empty, and where the
periodized skip is therefore refused. -/
theorem c4_resume_existence_checks_witness :
    all_period_files_exist
        [(⟨["EARNINGS", "annual"], "T"⟩, ⟨["a"], []⟩),
         (⟨["EARNINGS", "quarterly"], "T"⟩, ⟨["a"], [[("a", .int 1)]]⟩)]
        "EARNINGS" "T" = false ∧
    file_exists_nonempty
        [(⟨["EARNINGS", "annual"], "T"⟩, ⟨["a"], []⟩)]
        ⟨["EARNINGS", "annual"], "T"⟩ = false ∧
    resume_skip_periodized true
        [(⟨["EARNINGS", "annual"], "T"⟩, ⟨["a"], []⟩),
         (⟨["EARNINGS", "quarterly"], "T"⟩, ⟨["a"], [[("a", .int 1)]]⟩)]
        "EARNINGS" "T" = false :=
  ⟨by decide, by decide, by decide⟩

/-! ## Claim C5 -/

/-- Conversion success preserves the row count. -/
theorem coerceColE_length (o : Oracles) (c : String) :
    ∀ rows rows2, coerceColE o c rows = .ok rows2 → rows2.length = rows.length := by
  intro rows
  induction rows with
  | nil =>
    intro rows2 h
    simp only [coerceColE] at h
    cases h
    rfl
  | cons r rest ih =>
    intro rows2 h
    simp only [coerceColE] at h
    cases hc : dateCoerceE o (getCell r c) with
    | error e =>
      simp only [hc] at h
      exact Except.noConfusion h
    | ok v =>
      simp only [hc] at h
      cases hr : coerceColE o c rest with
      | error e =>
        simp only [hr] at h
        exact Except.noConfusion h
      | ok rs =>
        simp only [hr] at h
        cases h
        simp [ih rs hr]

/-- The behaviour C5's amended form states for the filtering column `c`
when every cell converts and the window keeps nothing: the whole
converted frame (same row count) is returned. -/
def dateFilterSpec (o : Oracles) (df : DF) (start stop : Nat) (c : String) :
    Prop :=
  ∀ rows2, coerceColE o c df.rows = .ok rows2 →
    rows2.filter (fun r => inRangeCell (getCell r c) start stop) = [] →
    filter_date o df start stop = .ok ⟨df.cols, rows2⟩ ∧
      rows2.length = df.rows.length

/-- The complementary kept case: the result is exactly the in-window
rows of the converted frame. -/
def dateFilterSpecKept (o : Oracles) (df : DF) (start stop : Nat) (c : String) :
    Prop :=
  ∀ rows2 kept, coerceColE o c df.rows = .ok rows2 →
    kept = rows2.filter (fun r => inRangeCell (getCell r c) start stop) →
    kept ≠ [] →
    filter_date o df start stop = .ok ⟨df.cols, kept⟩ ∧
      ∀ r ∈ kept, inRangeCell (getCell r c) start stop = true

/-- The raising case: an unconvertible cell in the filtering column
makes the whole filter raise. -/
def dateFilterSpecRaise (o : Oracles) (df : DF) (start stop : Nat) (c : String) :
    Prop :=
  ∀ e, coerceColE o c df.rows = .error e →
    filter_date o df start stop = .error e

/-- The C5 counterexample frame: a date column holding a string
`pd.to_datetime` cannot parse. -/
def c5df : DF := ⟨["date", "v"], [[("date", .str "not-a-date"), ("v", .int 5)]]⟩

/-- C5 counterexample: on a row set whose date column holds an
unparseable date string, `_filter_date` raises (`pd.to_datetime` runs
with its default `errors="raise"`) instead of returning a restricted or
unchanged row set, refuting the universal "for every row set ... rows
are restricted ... the unfiltered row set is kept instead". -/
theorem c5_counterexample :
    c5df.cols.contains "date" = true ∧
    c5df.rows ≠ [] ∧
    filter_date pandasOracles c5df 19000101 29991231 = .error .valErr :=
  ⟨by decide, by decide, rfl⟩

/-- C5 amended: the pre-write date filter picks the first column present
among date, timestamp, datetime and converts it with `pd.to_datetime`
(default `errors="raise"`). When every cell of that column converts (a
missing value becoming NaT silently), the rows are restricted to the
window; if the restriction would remove every row the entire converted
row set (same row count) is returned instead; when some cell does not
convert the filter raises; and a frame with none of those columns
passes through unchanged. -/
theorem c5_amended_date_window_filter (o : Oracles) (df : DF) (start stop : Nat) :
    (df.cols.contains "date" = false → df.cols.contains "timestamp" = false →
      df.cols.contains "datetime" = false →
      filter_date o df start stop = .ok df) ∧
    (df.cols.contains "date" = true →
      dateFilterSpec o df start stop "date" ∧
        dateFilterSpecKept o df start stop "date" ∧
        dateFilterSpecRaise o df start stop "date") ∧
    (df.cols.contains "date" = false → df.cols.contains "timestamp" = true →
      dateFilterSpec o df start stop "timestamp" ∧
        dateFilterSpecKept o df start stop "timestamp" ∧
        dateFilterSpecRaise o df start stop "timestamp") ∧
    (df.cols.contains "date" = false → df.cols.contains "timestamp" = false →
      df.cols.contains "datetime" = true →
      dateFilterSpec o df start stop "datetime" ∧
        dateFilterSpecKept o df start stop "datetime" ∧
        dateFilterSpecRaise o df start stop "datetime") := by
  have hunf : ∀ c,
      List.find? (fun x => df.cols.contains x) ["date", "timestamp", "datetime"] =
        some c →
      filter_date o df start stop =
        (match coerceColE o c df.rows with
         | .error e => .error e
         | .ok rows2 =>
           if (rows2.filter (fun r => inRangeCell (getCell r c) start stop)).isEmpty
           then .ok ⟨df.cols, rows2⟩
           else .ok ⟨df.cols,
             rows2.filter (fun r => inRangeCell (getCell r c) start stop)⟩) := by
    intro c hfind
    unfold filter_date
    rw [hfind]
  have hnone :
      List.find? (fun x => df.cols.contains x) ["date", "timestamp", "datetime"] =
        none →
      filter_date o df start stop = .ok df := by
    intro hfind
    unfold filter_date
    rw [hfind]
  have hmain : ∀ c,
      List.find? (fun x => df.cols.contains x) ["date", "timestamp", "datetime"] =
        some c →
      (dateFilterSpec o df start stop c ∧ dateFilterSpecKept o df start stop c ∧
        dateFilterSpecRaise o df start stop c) := by
    intro c hfind
    refine ⟨?_, ?_, ?_⟩
    · intro rows2 hok hnil
      refine ⟨?_, coerceColE_length o c df.rows rows2 hok⟩
      rw [hunf c hfind]
      simp only [hok, hnil, List.isEmpty_nil, ite_true]
    · intro rows2 kept hok hkept hne
      constructor
      · rw [hunf c hfind]
        simp only [hok, ← hkept, isEmpty_false_of_ne kept hne,
          Bool.false_eq_true, ite_false]
      · intro r hr
        rw [hkept] at hr
        exact (List.mem_filter.mp hr).2
    · intro e herr
      rw [hunf c hfind]
      simp only [herr]
  refine ⟨?_, ?_, ?_, ?_⟩
  · intro h1 h2 h3
    have h1m : ¬("date" ∈ df.cols) := by simpa using h1
    have h2m : ¬("timestamp" ∈ df.cols) := by simpa using h2
    have h3m : ¬("datetime" ∈ df.cols) := by simpa using h3
    exact hnone (by simp [List.find?, h1m, h2m, h3m])
  · intro h1
    have h1m : ("date" ∈ df.cols) := by simpa using h1
    exact hmain "date" (by simp [List.find?, h1m])
  · intro h1 h2
    have h1m : ¬("date" ∈ df.cols) := by simpa using h1
    have h2m : ("timestamp" ∈ df.cols) := by simpa using h2
    exact hmain "timestamp" (by simp [List.find?, h1m, h2m])
  · intro h1 h2 h3
    have h1m : ¬("date" ∈ df.cols) := by simpa using h1
    have h2m : ¬("timestamp" ∈ df.cols) := by simpa using h2
    have h3m : ("datetime" ∈ df.cols) := by simpa using h3
    exact hmain "datetime" (by simp [List.find?, h1m, h2m, h3m])

/-! ## Claim C7 -/

/-- C7: the sample time-series payload flattens to exactly one row with
the date key coerced, numeric prefixes stripped, values numerically
coerced and the symbol attached from the metadata; and the
numeric-prefix stripper sends "4. close" to close and "01. symbol" to
symbol. -/
theorem c7_time_series_flattening :
    contentToDf pandasOracles 3
        (.map [("Time Series (Daily)",
            .map [("2024-01-02",
              .map [("1. open", .str "10"), ("2. high", .str "11")])]),
          ("Meta Data", .map [("2. Symbol", .str "ABC")])]) =
      .ok ⟨["date", "open", "high", "symbol"],
        [[("date", .date 20240102), ("open", .int 10), ("high", .int 11),
          ("symbol", .str "ABC")]]⟩ ∧
    stripNum "4. close" = "close" ∧ stripNum "01. symbol" = "symbol" :=
  ⟨rfl, rfl, rfl⟩

/-! ## Claim C2 -/

/-- C2 counterexample: the flattener raises (AttributeError in
`_parse_time_series`, from `.items()` on a non-map) for the map payload
whose Time Series key holds a scalar, refuting "never raises for every
payload value". -/
theorem c2_counterexample :
    contentToDf pandasOracles 2 (.map [("Time Series (Daily)", .int 0)]) =
      .error .attrErr := rfl

/-- Is the payload a Python dict? -/
def isMapP : Payload → Bool
  | .map _ => true
  | _ => false

/-- C2 amended: the flattener can raise on a map payload whose
time-series-like value is not a map; for a text payload on which all
three parse attempts fail it returns the single-row text fallback, and a
scalar payload (none of list/map/text) yields the single-row value
fallback. -/
theorem c2_amended_flattener_fallbacks (o : Oracles) (fuel : Nat) :
    (∀ s, o.jsonLoads s = none → o.litEval s = none → o.readCsv s = none →
      contentToDf o (fuel + 1) (.str s) = .ok (textDF (.str s))) ∧
    (∀ n : Int, contentToDf o (fuel + 1) (.int n) = .ok (valueDF (.int n))) ∧
    (∀ b : Bool, contentToDf o (fuel + 1) (.bool b) = .ok (valueDF (.bool b))) ∧
    (∀ d : Nat, contentToDf o (fuel + 1) (.date d) = .ok (valueDF (.date d))) ∧
    (∀ l, contentToDf o (fuel + 1) (.tup l) = .ok (valueDF (.tup l))) ∧
    (contentToDf o (fuel + 1) .null = .ok (valueDF .null)) ∧
    (∀ v, isMapP v = false →
      contentToDf o (fuel + 1) (.map [("Time Series (Daily)", v)]) =
        .error .attrErr) := by
  refine ⟨?_, fun n => rfl, fun b => rfl, fun d => rfl, fun l => rfl, rfl, ?_⟩
  · intro s h1 h2 h3
    show tryParseTextF (fun q => contentToDf o fuel q) o (.str s) = _
    simp only [tryParseTextF, h1, h2, csvStep, h3]
  · intro v hv
    have hstep : contentToDf o (fuel + 1) (.map [("Time Series (Daily)", v)]) =
        parseTimeSeries o v (.map []) := rfl
    rw [hstep]
    cases v with
    | map m => simp [isMapP] at hv
    | list l => rfl
    | str s => rfl
    | int n => rfl
    | bool b => rfl
    | date d => rfl
    | tup l => rfl
    | null => rfl

/-! ## Claim C8 -/

/-- The C8 counterexample tree: one company-overview partition whose
only cell is a provider error payload. -/
def c8fs : FS :=
  [(⟨["COMPANY_OVERVIEW"], "AAPL"⟩,
    ⟨["Information"],
      [[("Information", .str "Invalid API call. Please retry or visit the documentation.")]]⟩)]

/-- C8 counterexample: the produced record's endpoint field carries the
raw endpoint name COMPANY_OVERVIEW, not its provider function name
OVERVIEW (which appears only inside the reconstructed api_url),
refuting "the endpoint mapped to its provider function name". -/
theorem c8_counterexample :
    export_all_failures c8fs =
      [{ ticker := "AAPL", function := "COMPANY_OVERVIEW",
         path := ⟨["COMPANY_OVERVIEW"], "AAPL"⟩,
         api_url := mkApiUrl "OVERVIEW" "AAPL",
         error_sample := "Invalid API call. Please retry or visit the documentation." }] ∧
    restFunction "COMPANY_OVERVIEW" = "OVERVIEW" ∧
    ("COMPANY_OVERVIEW" : String) ≠ "OVERVIEW" :=
  ⟨by decide, by decide, by decide⟩

/-- C8 amended: the final-dataset scanners classify per row — a row is a
failure exactly when some field, stringified, contains "invalid api
call" case-insensitively, whatever column holds it; the raw-tree scanner
emits one record per matching readable non-empty non-WRDS file (a file
matches when any cell matches); each record carries the ticker (the file
stem), the raw endpoint name recovered from the path, and an api_url
reconstructed from the endpoint's mapped provider function name. -/
theorem c8_amended_failure_scan (d : DF) (files : FS) :
    (∀ r, r ∈ failure_rows d ↔
      r ∈ d.rows ∧ ∃ c ∈ d.cols, cellMatchesInvalid (getCell r c) = true) ∧
    (export_all_failures files = files.filterMap failRecOf) ∧
    (∀ p df, (failRecOf (p, df)).isSome = true ↔
      (isWrds p = false ∧ df.isEmptyDF = false ∧
        ∃ r ∈ df.rows, ∃ c ∈ df.cols, cellMatchesInvalid (getCell r c) = true)) ∧
    (∀ p df fr, failRecOf (p, df) = some fr →
      fr.ticker = p.stem ∧ fr.function = rawEndpoint p ∧
        fr.api_url = mkApiUrl (restFunction (rawEndpoint p)) p.stem) := by
  refine ⟨?_, rfl, ?_, ?_⟩
  · intro r
    simp [failure_rows, rowHasInvalid, List.mem_filter, List.any_eq_true]
  · intro p df
    unfold failRecOf
    by_cases h1 : isWrds p
    · simp [h1]
    · by_cases h2 : df.isEmptyDF
      · simp [h1, h2]
      · by_cases h3 : dfHasInvalid df
        · simp only [h1, h2, h3, Bool.not_true, Bool.false_eq_true, if_false,
            ite_false, Option.isSome_some, true_iff]
          refine ⟨by simp [h1], by simp [h2], ?_⟩
          simpa [dfHasInvalid, rowHasInvalid, List.any_eq_true] using h3
        · simp only [h1, h2]
          have h3f : dfHasInvalid df = false := by
            cases hh : dfHasInvalid df with
            | false => rfl
            | true => exact absurd hh h3
          simp only [h3f, Bool.not_false, if_true, Bool.false_eq_true,
            ite_false, ite_true]
          constructor
          · intro hcontra
            simp at hcontra
          · rintro ⟨_, _, hex⟩
            exfalso
            apply h3
            simpa [dfHasInvalid, rowHasInvalid, List.any_eq_true] using hex
  · intro p df fr hfr
    unfold failRecOf at hfr
    by_cases h1 : isWrds p
    · simp [h1] at hfr
    · by_cases h2 : df.isEmptyDF
      · simp [h1, h2] at hfr
      · by_cases h3 : dfHasInvalid df
        · simp only [h1, h2, h3, Bool.not_true, Bool.false_eq_true, if_false,
            ite_false, Option.some.injEq] at hfr
          subst hfr
          exact ⟨rfl, rfl, rfl⟩
        · have h3f : dfHasInvalid df = false := by
            cases hh : dfHasInvalid df with
            | false => rfl
            | true => exact absurd hh h3
          simp [h1, h2, h3f] at hfr

/-! ## Claim C6 -/

/-- The single-text-cell fallback frame is never pandas-empty. -/
theorem textDF_isEmptyDF (v : Payload) : (textDF v).isEmptyDF = false := rfl

/-- The double-encoded CSV-looking sample text of the C6 counterexample:
a valid Python tuple literal on which `pd.read_csv` raises (its two
lines have different field counts). -/
def c6sample : String := "(1,\n2,3,4)"

/-- The text block of the C6 counterexample: the literal source of a
preview-wrapper dict whose sample_data is `c6sample`. Valid as a Python
literal; not valid JSON because of the capitalised True. -/
def c6text : String :=
  "\x7b\"preview\": True, \"data_type\": \"csv\", \"sample_data\": \"(1,\\n2,3,4)\"\x7d"

/-- Oracles for the C6 counterexample: `ast.literal_eval` parses the two
literals above (and nothing else), `json.loads` always fails (the only
candidate text has a non-JSON True), `pd.read_csv` always raises (the
only candidate text is the ragged `c6sample`). -/
def c6oracles : Oracles :=
  { pandasOracles with
    litEval := fun s =>
      if s = c6text then
        some (.map [("preview", .bool true), ("data_type", .str "csv"),
          ("sample_data", .str c6sample)])
      else if s = c6sample then some (.tup [.int 1, .int 2, .int 3, .int 4])
      else none }

/-- The C6 counterexample payload: a list whose first element is a map
with a text field. -/
def c6payload : Payload := .list [.map [("text", .str c6text)]]

/-- C6 counterexample: the classifier returns a single-row text result
(the initial literal parse succeeded and its recursion hit the preview
branch whose CSV parse raises) without performing the one extra reparse
pass — although that pass would succeed on the text and produce a
different frame — refuting "after producing a single-row text result it
performs exactly one additional recursive reparse pass on that text". -/
theorem c6_counterexample :
    contentToDf c6oracles 9 c6payload = .ok (textDF (.str c6sample)) ∧
    c6oracles.litEval c6sample = some (.tup [.int 1, .int 2, .int 3, .int 4]) ∧
    maybeReparse c6oracles 9 (textDF (.str c6sample)) =
      valueDF (.tup [.int 1, .int 2, .int 3, .int 4]) ∧
    textDF (.str c6sample) ≠ valueDF (.tup [.int 1, .int 2, .int 3, .int 4]) :=
  ⟨rfl, rfl, rfl, by decide⟩

/-- C6 amended: for a list payload whose first element is a map with a
text field, the attempts run in the order literal, JSON, CSV, text
wrap — but the one additional reparse pass applies only to the results
of the JSON/CSV/text-wrap path, which is entered when the initial
literal parse fails; a result returned by the successful initial literal
parse's recursion is returned as-is, and a pandas-empty frame (zero rows
or zero columns) from the JSON/CSV attempts is discarded in favour of
the wrapped text. The last two parts state the single reparse pass
itself: one literal attempt that reclassifies on success and gives up on
failure. -/
theorem c6_amended_tagged_text_order (o : Oracles) (fuel : Nat) (txt : String)
    (m : List (String × Payload)) (rest : List Payload)
    (hm : lookupA m "text" = some (.str txt)) :
    (∀ p df, o.litEval txt = some p → contentToDf o fuel p = .ok df →
      contentToDf o (fuel + 1) (.list (.map m :: rest)) = .ok df) ∧
    (∀ p df, o.litEval txt = none → o.jsonLoads txt = some p →
      contentToDf o fuel p = .ok df → df.isEmptyDF = false →
      contentToDf o (fuel + 1) (.list (.map m :: rest)) =
        .ok (maybeReparse o fuel df)) ∧
    (∀ p df, o.litEval txt = none → o.jsonLoads txt = some p →
      contentToDf o fuel p = .ok df → df.isEmptyDF = true →
      contentToDf o (fuel + 1) (.list (.map m :: rest)) =
        .ok (maybeReparse o fuel (textDF (.str txt)))) ∧
    (∀ df, o.litEval txt = none → o.jsonLoads txt = none →
      o.readCsv txt = some df → df.isEmptyDF = false →
      contentToDf o (fuel + 1) (.list (.map m :: rest)) =
        .ok (maybeReparse o fuel df)) ∧
    (∀ df, o.litEval txt = none → o.jsonLoads txt = none →
      o.readCsv txt = some df → df.isEmptyDF = true →
      contentToDf o (fuel + 1) (.list (.map m :: rest)) =
        .ok (maybeReparse o fuel (textDF (.str txt)))) ∧
    (o.litEval txt = none → o.jsonLoads txt = none → o.readCsv txt = none →
      contentToDf o (fuel + 1) (.list (.map m :: rest)) =
        .ok (maybeReparse o fuel (textDF (.str txt)))) ∧
    (∀ t p d2, o.litEval t = some p → contentToDf o fuel p = .ok d2 →
      maybeReparse o fuel (textDF (.str t)) = d2) ∧
    (∀ t, o.litEval t = none →
      maybeReparse o fuel (textDF (.str t)) = textDF (.str t)) := by
  have hunf : contentToDf o (fuel + 1) (.list (.map m :: rest)) =
      (match (match o.litEval txt with
              | some p => contentToDf o fuel p
              | none => Except.error Err.valErr) with
       | .ok df => .ok df
       | .error _ =>
         match tryParseTextF (fun p => contentToDf o fuel p) o (.str txt) with
         | .error e => .error e
         | .ok f =>
           if f.isEmptyDF then
             .ok (maybeReparseF (fun p => contentToDf o fuel p) o (textDF (.str txt)))
           else .ok (maybeReparseF (fun p => contentToDf o fuel p) o f)) := by
    show (if (lookupA m "text").isSome then _ else _) = _
    rw [hm]
    rfl
  refine ⟨?_, ?_, ?_, ?_, ?_, ?_, ?_, ?_⟩
  · intro p df h1 h2
    rw [hunf]
    simp only [h1, h2]
  · intro p df h1 h2 h3 h4
    rw [hunf]
    simp only [h1, tryParseTextF, h2, h3, h4,
      maybeReparse, Bool.false_eq_true, ite_false]
  · intro p df h1 h2 h3 h4
    rw [hunf]
    simp only [h1, tryParseTextF, h2, h3, h4, maybeReparse, ite_true]
  · intro df h1 h2 h3 h4
    rw [hunf]
    simp only [h1, tryParseTextF, h2, csvStep, h3, h4,
      maybeReparse, Bool.false_eq_true, ite_false]
  · intro df h1 h2 h3 h4
    rw [hunf]
    simp only [h1, tryParseTextF, h2, csvStep, h3, h4, maybeReparse, ite_true]
  · intro h1 h2 h3
    rw [hunf]
    simp only [h1, tryParseTextF, h2, csvStep, h3, maybeReparse,
      textDF_isEmptyDF, Bool.false_eq_true, ite_false]
  · intro t p d2 h1 h2
    simp [maybeReparse, maybeReparseF, textDF, getCell, lookupA, h1, h2]
  · intro t h1
    simp [maybeReparse, maybeReparseF, textDF, getCell, lookupA, h1]

/-- Witness for C6 amended: the all-parsers-fail branch and the
giving-up reparse pass at a concrete input. -/
theorem c6_amended_tagged_text_order_witness :
    contentToDf pandasOracles 1 (.list [.map [("text", .str "zz")]]) =
      .ok (maybeReparse pandasOracles 0 (textDF (.str "zz"))) ∧
    maybeReparse pandasOracles 0 (textDF (.str "zz")) = textDF (.str "zz") := by
  have h := c6_amended_tagged_text_order pandasOracles 0 "zz"
    [("text", .str "zz")] [] rfl
  exact ⟨h.2.2.2.2.2.1 rfl rfl rfl, h.2.2.2.2.2.2.2 "zz" rfl⟩

/-! ## Claim C10 -/

/-- A raw file contributes to some domain bucket of
transform_raw_to_final: it is not a WRDS artifact, not empty, and its
parent directory is a recognized endpoint. -/
def contributes (f : RPath × DF) : Bool :=
  !isWrds f.1 && !f.2.isEmptyDF &&
    (f.1.parentName = "TIME_SERIES_DAILY_ADJUSTED" ||
     f.1.parentName = "TIME_SERIES_WEEKLY_ADJUSTED" ||
     FUNDAMENTALS_ENDPOINTS.contains f.1.parentName ||
     ECON_ENDPOINTS.contains f.1.parentName ||
     f.1.parentName = "COMPANY_OVERVIEW")

theorem insertFund_ne_nil (acc : List (String × List DF)) (s : String) (d : DF) :
    insertFund acc s d ≠ [] := by
  cases acc with
  | nil => simp [insertFund]
  | cons p rest =>
    obtain ⟨t, ds⟩ := p
    by_cases h : t = s <;> simp [insertFund, h]

theorem groupFund_eq_nil (pairs : List (String × DF)) :
    groupFund pairs = [] ↔ pairs = [] := by
  cases pairs with
  | nil => simp [groupFund]
  | cons p ps =>
    simp only [groupFund, List.foldl_cons, List.cons_ne_nil, iff_false]
    have hstep : ∀ (l : List (String × DF)) (acc : List (String × List DF)),
        acc ≠ [] → List.foldl (fun a q => insertFund a q.1 q.2) acc l ≠ [] := by
      intro l
      induction l with
      | nil => intro acc h; simpa using h
      | cons q qs ih =>
        intro acc h
        simp only [List.foldl_cons]
        exact ih _ (insertFund_ne_nil acc q.1 q.2)
    exact hstep ps _ (insertFund_ne_nil [] p.1 p.2)

theorem optOut_eq_nil {α β : Type} (l : List α) (x : β) :
    (if !l.isEmpty then [x] else []) = [] ↔ l = [] := by
  cases l <;> simp

/-- Emptiness of one bucket in terms of the underlying files. -/
theorem filterMapActive_eq_nil (files : FS) (p : RPath × DF → Prop)
    [DecidablePred p] (h : RPath × DF → DF) :
    ((activeFiles files).filterMap
        (fun f => if p f then some (h f) else none) = [] ↔
      ∀ f ∈ files, (!isWrds f.1 && !f.2.isEmptyDF) = true → ¬p f) := by
  rw [List.filterMap_eq_nil_iff]
  constructor
  · intro hall f hf hac hp
    have hmem : f ∈ activeFiles files := by
      simp [activeFiles, List.mem_filter, hf, hac]
    have h2 := hall f hmem
    rw [if_pos hp] at h2
    cases h2
  · intro hall f hf
    have hf2 : f ∈ files ∧ (!isWrds f.1 && !f.2.isEmptyDF) = true := by
      simpa [activeFiles, List.mem_filter] using hf
    rw [if_neg (hall f hf2.1 hf2.2)]

/-- Pointwise reading of `contributes f = false`. -/
theorem contributes_false_iff (f : RPath × DF) : contributes f = false ↔
    ((!isWrds f.1 && !f.2.isEmptyDF) = true →
      (¬f.1.parentName = "TIME_SERIES_DAILY_ADJUSTED" ∧
       ¬f.1.parentName = "TIME_SERIES_WEEKLY_ADJUSTED" ∧
       ¬FUNDAMENTALS_ENDPOINTS.contains f.1.parentName = true ∧
       ¬ECON_ENDPOINTS.contains f.1.parentName = true ∧
       ¬f.1.parentName = "COMPANY_OVERVIEW")) := by
  simp only [Bool.eq_false_iff, ne_eq, contributes, Bool.and_eq_true,
    Bool.or_eq_true, decide_eq_true_eq]
  tauto

/-- C10: transform_raw_to_final raises FileNotFoundError on an empty raw
tree; with files present it raises ValueError exactly when no file
contributes to any domain bucket; and as soon as one file contributes it
returns a non-empty output mapping — it never returns an empty output
set. -/
theorem c10_transform_never_empty (o : Oracles) (files : FS) :
    (files = [] → transform_raw_to_final o files = .error .fnfErr) ∧
    (files ≠ [] →
      (transform_raw_to_final o files = .error .valErr ↔
        ∀ f ∈ files, contributes f = false)) ∧
    ((∃ f ∈ files, contributes f = true) →
      ∃ outs, transform_raw_to_final o files = .ok outs ∧ outs ≠ []) := by
  have hA := filterMapActive_eq_nil files
    (fun f => f.1.parentName = "TIME_SERIES_DAILY_ADJUSTED")
    (fun f => normalize_price o f.2 f.1.stem)
  have hB := filterMapActive_eq_nil files
    (fun f => f.1.parentName = "TIME_SERIES_WEEKLY_ADJUSTED")
    (fun f => normalize_price o f.2 f.1.stem)
  have hC := filterMapActive_eq_nil files
    (fun f => FUNDAMENTALS_ENDPOINTS.contains f.1.parentName = true)
    (fun f => (fundTag f).2)
  have hD := filterMapActive_eq_nil files
    (fun f => ECON_ENDPOINTS.contains f.1.parentName = true)
    (fun f => setCol "indicator" (.str f.1.parentName) f.2)
  have hE := filterMapActive_eq_nil files
    (fun f => f.1.parentName = "COMPANY_OVERVIEW")
    (fun f => setCol "ticker" (.str f.1.stem) f.2)
  have hAq : priceFrames o "TIME_SERIES_DAILY_ADJUSTED" files = [] ↔
      ∀ f ∈ files, (!isWrds f.1 && !f.2.isEmptyDF) = true →
        ¬f.1.parentName = "TIME_SERIES_DAILY_ADJUSTED" := hA
  have hBq : priceFrames o "TIME_SERIES_WEEKLY_ADJUSTED" files = [] ↔
      ∀ f ∈ files, (!isWrds f.1 && !f.2.isEmptyDF) = true →
        ¬f.1.parentName = "TIME_SERIES_WEEKLY_ADJUSTED" := hB
  have hCq : fundPairs files = [] ↔
      ∀ f ∈ files, (!isWrds f.1 && !f.2.isEmptyDF) = true →
        ¬FUNDAMENTALS_ENDPOINTS.contains f.1.parentName = true := by
    constructor
    · intro hnil
      refine hC.mp ?_
      unfold fundPairs at hnil
      have : ((activeFiles files).filterMap (fun f =>
          if FUNDAMENTALS_ENDPOINTS.contains f.1.parentName = true then
            some (fundTag f) else none)) = [] := hnil
      rw [List.filterMap_eq_nil_iff] at this ⊢
      intro f hf
      have h2 := this f hf
      by_cases hg : FUNDAMENTALS_ENDPOINTS.contains f.1.parentName = true
      · rw [if_pos hg] at h2; cases h2
      · rw [if_neg hg]
    · intro hall
      unfold fundPairs
      rw [List.filterMap_eq_nil_iff]
      intro f hf
      have hf2 : f ∈ files ∧ (!isWrds f.1 && !f.2.isEmptyDF) = true := by
        simpa [activeFiles, List.mem_filter] using hf
      rw [if_neg (hall f hf2.1 hf2.2)]
  have hDq : econFrames files = [] ↔
      ∀ f ∈ files, (!isWrds f.1 && !f.2.isEmptyDF) = true →
        ¬ECON_ENDPOINTS.contains f.1.parentName = true := hD
  have hEq : overviewFrames files = [] ↔
      ∀ f ∈ files, (!isWrds f.1 && !f.2.isEmptyDF) = true →
        ¬f.1.parentName = "COMPANY_OVERVIEW" := hE
  have hbuckets : (priceFrames o "TIME_SERIES_DAILY_ADJUSTED" files = [] ∧
      priceFrames o "TIME_SERIES_WEEKLY_ADJUSTED" files = [] ∧
      fundPairs files = [] ∧ econFrames files = [] ∧
      overviewFrames files = []) ↔
      ∀ f ∈ files, contributes f = false := by
    rw [hAq, hBq, hCq, hDq, hEq]
    constructor
    · rintro ⟨h1, h2, h3, h4, h5⟩ f hf
      rw [contributes_false_iff]
      intro hac
      exact ⟨h1 f hf hac, h2 f hf hac, h3 f hf hac, h4 f hf hac, h5 f hf hac⟩
    · intro hall
      refine ⟨?_, ?_, ?_, ?_, ?_⟩ <;> intro f hf hac
      · exact ((contributes_false_iff f).mp (hall f hf) hac).1
      · exact ((contributes_false_iff f).mp (hall f hf) hac).2.1
      · exact ((contributes_false_iff f).mp (hall f hf) hac).2.2.1
      · exact ((contributes_false_iff f).mp (hall f hf) hac).2.2.2.1
      · exact ((contributes_false_iff f).mp (hall f hf) hac).2.2.2.2
  have hiff : files ≠ [] →
      (transform_raw_to_final o files = .error .valErr ↔
        ∀ f ∈ files, contributes f = false) := by
    intro hne
    have hie : files.isEmpty = false := isEmpty_false_of_ne files hne
    unfold transform_raw_to_final
    rw [hie]
    simp only [Bool.false_eq_true, if_false, ite_false]
    rw [← hbuckets]
    by_cases h1 : priceFrames o "TIME_SERIES_DAILY_ADJUSTED" files = [] <;>
      by_cases h2 : priceFrames o "TIME_SERIES_WEEKLY_ADJUSTED" files = [] <;>
        by_cases h3 : fundPairs files = [] <;>
          by_cases h4 : econFrames files = [] <;>
            by_cases h5 : overviewFrames files = [] <;>
              simp [h1, h2, h3, h4, h5, groupFund_eq_nil,
                List.isEmpty_eq_true, List.isEmpty_eq_false]
  refine ⟨?_, hiff, ?_⟩
  · intro h
    rw [h]
    rfl
  · rintro ⟨f, hf, hcontr⟩
    have hne : files ≠ [] := by
      intro h
      rw [h] at hf
      cases hf
    have hie : files.isEmpty = false := isEmpty_false_of_ne files hne
    have hnotall : ¬∀ g ∈ files, contributes g = false := by
      intro hall
      rw [hall f hf] at hcontr
      cases hcontr
    have hcases : ∀ l : List (String × DF),
        (if l.isEmpty then Except.error Err.valErr else Except.ok l) =
            Except.error Err.valErr ∨
          ∃ outs, (if l.isEmpty then Except.error Err.valErr else Except.ok l) =
            Except.ok outs ∧ outs ≠ [] := by
      intro l
      cases l <;> simp
    have htotal : transform_raw_to_final o files = .error .valErr ∨
        ∃ outs, transform_raw_to_final o files = .ok outs ∧ outs ≠ [] := by
      unfold transform_raw_to_final
      rw [hie]
      simp only [Bool.false_eq_true, if_false, ite_false]
      exact hcases _
    rcases htotal with h | h
    · exact absurd ((hiff hne).mp h) hnotall
    · exact h

/-! ## Claim C1 -/

/-- Read one named domain table of the transform output. -/
def lookupOut : List (String × DF) → String → Option DF
  | [], _ => none
  | (k, v) :: rest, key => if k = key then some v else lookupOut rest key

/-- The daily-price partitions the transform loop feeds into
price normalization: active files under TIME_SERIES_DAILY_ADJUSTED. -/
def activeDaily (files : FS) : FS :=
  (activeFiles files).filter
    (fun f => f.1.parentName = "TIME_SERIES_DAILY_ADJUSTED")

theorem filterMap_if_eq_map_filter {α β : Type} (l : List α) (p : α → Prop)
    [DecidablePred p] (g : α → β) :
    l.filterMap (fun a => if p a then some (g a) else none) =
      (l.filter (fun a => p a)).map g := by
  induction l with
  | nil => rfl
  | cons a t ih => by_cases h : p a <;> simp [h, ih]

theorem priceFrames_eq_map (o : Oracles) (files : FS) :
    priceFrames o "TIME_SERIES_DAILY_ADJUSTED" files =
      (activeDaily files).map (fun f => normalize_price o f.2 f.1.stem) :=
  filterMap_if_eq_map_filter (activeFiles files)
    (fun f => f.1.parentName = "TIME_SERIES_DAILY_ADJUSTED")
    (fun f => normalize_price o f.2 f.1.stem)

theorem setCol_cols_mem (c : String) (v : Payload) (d : DF) :
    c ∈ (setCol c v d).cols := by
  unfold setCol
  by_cases h : d.cols.contains c
  · simp only [h, if_true, ite_true]
    simpa using h
  · have h2 : ¬c ∈ d.cols := by simpa using h
    simp [h, h2]

theorem setCol_cols_supset (c x : String) (v : Payload) (d : DF)
    (h : x ∈ d.cols) : x ∈ (setCol c v d).cols := by
  unfold setCol
  split <;> simp [h]

theorem setCol_rows_getCell (c : String) (v : Payload) (d : DF) :
    ∀ r ∈ (setCol c v d).rows, getCell r c = v := by
  intro r hr
  simp only [setCol, List.mem_map] at hr
  obtain ⟨r0, _, rfl⟩ := hr
  exact getCell_updateA_self r0 c v

theorem mapCol_cols (c : String) (f : Payload → Payload) (d : DF) :
    (mapCol c f d).cols = d.cols := by
  unfold mapCol
  split <;> rfl

theorem mapCol_preserve_const (c c2 : String) (f : Payload → Payload) (d : DF)
    (v : Payload) (hne : c2 ≠ c) (h : ∀ r ∈ d.rows, getCell r c = v) :
    ∀ r ∈ (mapCol c2 f d).rows, getCell r c = v := by
  intro r hr
  unfold mapCol at hr
  split at hr
  · simp only [List.mem_map] at hr
    obtain ⟨r0, hr0, rfl⟩ := hr
    rw [getCell_updateA_ne r0 c2 c _ hne]
    exact h r0 hr0
  · exact h r hr

theorem foldl_mapCol_cols (cs : List String) (o : Oracles) (d : DF) :
    (cs.foldl (fun d c => mapCol c o.toNumCoerce d) d).cols = d.cols := by
  induction cs generalizing d with
  | nil => rfl
  | cons c t ih => rw [List.foldl_cons, ih, mapCol_cols]

theorem foldl_mapCol_preserve_const (cs : List String) (o : Oracles) (d : DF)
    (c : String) (v : Payload) (hcs : ∀ c2 ∈ cs, c2 ≠ c)
    (h : ∀ r ∈ d.rows, getCell r c = v) :
    ∀ r ∈ (cs.foldl (fun d c => mapCol c o.toNumCoerce d) d).rows,
      getCell r c = v := by
  induction cs generalizing d with
  | nil => exact h
  | cons c2 t ih =>
    rw [List.foldl_cons]
    exact ih _ (fun x hx => hcs x (List.mem_cons_of_mem _ hx))
      (mapCol_preserve_const c c2 _ d v (hcs c2 (List.mem_cons_self _ _)) h)

theorem lookupA_build (keep : List String) (g : String → Payload) (k : String)
    (hk : k ∈ keep) :
    lookupA (keep.map (fun c => (c, g c))) k = some (g k) := by
  induction keep with
  | nil => cases hk
  | cons c t ih =>
    by_cases h : c = k
    · subst h
      simp [lookupA]
    · rcases List.mem_cons.mp hk with h2 | h2
      · exact absurd h2.symm h
      · simp only [List.map_cons, lookupA, if_neg h]
        exact ih h2

theorem selectCols_getCell_const (keep : List String) (d : DF) (k : String)
    (v : Payload) (hk : k ∈ keep) (h : ∀ r ∈ d.rows, getCell r k = v) :
    ∀ r ∈ (selectCols keep d).rows, getCell r k = v := by
  intro r hr
  simp only [selectCols, List.mem_map] at hr
  obtain ⟨r0, hr0, rfl⟩ := hr
  unfold getCell
  rw [lookupA_build keep (fun c => (lookupA r0 c).getD Payload.null) k hk]
  exact h r0 hr0

theorem mem_colUnion (acc cs : List String) (c : String) :
    c ∈ colUnion acc cs ↔ c ∈ acc ∨ c ∈ cs := by
  unfold colUnion
  rw [List.mem_append, List.mem_filter]
  constructor
  · rintro (h | ⟨h, _⟩)
    · exact Or.inl h
    · exact Or.inr h
  · intro h
    by_cases ha : c ∈ acc
    · exact Or.inl ha
    · rcases h with h | h
      · exact absurd h ha
      · refine Or.inr ⟨h, ?_⟩
        simpa using ha

theorem mem_foldl_colUnion {α : Type} (g : α → List String) (l : List α)
    (acc : List String) (c : String) :
    c ∈ l.foldl (fun acc x => colUnion acc (g x)) acc ↔
      c ∈ acc ∨ ∃ x ∈ l, c ∈ g x := by
  induction l generalizing acc with
  | nil => simp
  | cons a t ih =>
    rw [List.foldl_cons, ih, mem_colUnion]
    constructor
    · rintro ((h | h) | ⟨x, hx, hc⟩)
      · exact Or.inl h
      · exact Or.inr ⟨a, List.mem_cons_self _ _, h⟩
      · exact Or.inr ⟨x, List.mem_cons_of_mem _ hx, hc⟩
    · rintro (h | ⟨x, hx, hc⟩)
      · exact Or.inl (Or.inl h)
      · rcases List.mem_cons.mp hx with h2 | h2
        · subst h2
          exact Or.inl (Or.inr hc)
        · exact Or.inr ⟨x, h2, hc⟩

theorem colUnion_nodup (acc cs : List String) (h1 : acc.Nodup)
    (h2 : cs.Nodup) : (colUnion acc cs).Nodup := by
  unfold colUnion
  refine List.Nodup.append h1 (h2.filter _) ?_
  intro a ha hb
  rw [List.mem_filter] at hb
  have := hb.2
  simp only [Bool.not_eq_true', ← Bool.not_eq_true] at this
  exact this (by simpa using ha)

theorem foldl_colUnion_nodup {α : Type} (g : α → List String) (l : List α)
    (acc : List String) (h1 : acc.Nodup) (h2 : ∀ x ∈ l, (g x).Nodup) :
    (l.foldl (fun acc x => colUnion acc (g x)) acc).Nodup := by
  induction l generalizing acc with
  | nil => exact h1
  | cons a t ih =>
    rw [List.foldl_cons]
    exact ih _ (colUnion_nodup acc (g a) h1 (h2 a (List.mem_cons_self _ _)))
      (fun x hx => h2 x (List.mem_cons_of_mem _ hx))

theorem mem_keysA_updateA_self (r : Row) (k : String) (v : Payload) :
    k ∈ keysA (updateA r k v) := by
  induction r with
  | nil => simp [updateA, keysA]
  | cons p rest ih =>
    obtain ⟨a, w⟩ := p
    by_cases h : a = k
    · subst h
      simp [updateA, keysA]
    · simp only [updateA, if_neg h, keysA, List.map_cons, List.mem_cons]
      exact Or.inr ih

theorem mem_keysA_updateA_preserve (r : Row) (k k2 : String) (v : Payload)
    (h : k ∈ keysA r) : k ∈ keysA (updateA r k2 v) := by
  induction r with
  | nil => cases h
  | cons p rest ih =>
    obtain ⟨a, w⟩ := p
    by_cases ha : a = k2
    · subst ha
      simpa [updateA, keysA] using h
    · simp only [updateA, if_neg ha, keysA, List.map_cons, List.mem_cons]
      rcases List.mem_cons.mp h with h2 | h2
      · exact Or.inl h2
      · exact Or.inr (ih h2)

theorem mem_renameDF_target (c x : String) (d : DF) (h : c ∈ d.cols) :
    x ∈ (renameDF [(c, x)] d).cols := by
  unfold renameDF
  simp only [List.mem_map]
  exact ⟨c, h, by simp⟩

theorem mem_renameDF_of_fix (m : List (String × String)) (d : DF) (x : String)
    (hfix : m.find? (fun p => p.1 = x) = none) (h : x ∈ d.cols) :
    x ∈ (renameDF m d).cols := by
  unfold renameDF
  simp only [List.mem_map]
  exact ⟨x, h, by simp [hfix]⟩

/-- A successful wide-format unpivot always yields a date column. -/
theorem unpivotWide_date_mem (df : DF) (t : String) (w : DF)
    (h : unpivotWide df t = some w) : "date" ∈ w.cols := by
  unfold unpivotWide at h
  split at h
  · cases h
  · split at h
    · cases h
    · rename_i pre hpre
      dsimp only at h
      split at h
      · cases h
      · rename_i hgr
        injection h with h2
        subst h2
        unfold dfOfRecords
        rw [mem_foldl_colUnion keysA]
        right
        cases hg : (df.cols.foldl (fun acc col =>
            match parseWideCol pre col with
            | none => acc
            | some (dateS, num, label) =>
              match (PRICE_FIELDS.find? (fun q =>
                  q.1 = (num ++ ". " ++ label).trim)).map Prod.snd with
              | none => acc
              | some field => updateG acc dateS field (getCell (df.rows.headD []) col)) []) with
        | nil =>
          rw [hg] at hgr
          exact absurd rfl hgr
        | cons p rest =>
          refine ⟨updateA (updateA p.2 "date" (.str p.1)) "ticker" (.str t),
            List.mem_map.mpr ⟨p, List.mem_cons_self _ _, rfl⟩, ?_⟩
          exact mem_keysA_updateA_preserve _ "date" "ticker" _
            (mem_keysA_updateA_self p.2 "date" (.str p.1))

/-- Structure of `_normalize_price`: it is the column selection of an
inner frame that carries the ticker column (constant on every row) and,
whenever the input frame has any column, a date column. -/
theorem normalize_price_spec (o : Oracles) (df : DF) (t : String) :
    ∃ inner : DF,
      normalize_price o df t =
        selectCols ((PRICE_COLS ++ ["ticker"]).filter
          (fun c => inner.cols.contains c)) inner ∧
      "ticker" ∈ inner.cols ∧
      (∀ r ∈ inner.rows, getCell r "ticker" = .str t) ∧
      (df.cols ≠ [] → "date" ∈ inner.cols) := by
  refine ⟨_, rfl, ?_, ?_, ?_⟩
  · rw [foldl_mapCol_cols, mapCol_cols]
    exact setCol_cols_mem _ _ _
  · apply foldl_mapCol_preserve_const _ _ _ _ _ (by decide)
    apply mapCol_preserve_const _ _ _ _ _ (by decide)
    exact setCol_rows_getCell _ _ _
  · intro hcols
    rw [foldl_mapCol_cols, mapCol_cols]
    apply setCol_cols_supset
    apply mem_renameDF_of_fix _ _ _ (by decide)
    cases hu : unpivotWide df t with
    | some w =>
      simp only [hu]
      exact unpivotWide_date_mem df t w hu
    | none =>
      simp only [hu]
      cases hi : infer_date_column df with
      | some c =>
        simp only [hi]
        by_cases hd : (renameDF [(c, "date")] df).cols.contains "date"
        · simp only [hd, if_true, ite_true]
          simpa using hd
        · have hd2 : (renameDF [(c, "date")] df).cols.contains "date" = false := by
            cases hh : (renameDF [(c, "date")] df).cols.contains "date" with
            | false => rfl
            | true => exact absurd hh hd
          have hinfer : c ∈ df.cols := by
            have := List.find?_some hi
            simpa using this
          exfalso
          apply hd
          have hmem := mem_renameDF_target c "date" df hinfer
          simpa using hmem
      | none =>
        simp only [hi]
        have hne : df.cols.contains "date" = false := by
          have := List.find?_eq_none.mp hi "date" (by simp)
          cases hh : df.cols.contains "date" with
          | false => rfl
          | true => exact absurd hh (by simpa using this)
        simp only [hne, Bool.false_eq_true, if_false, ite_false]
        cases hc : df.cols with
        | nil => exact absurd hc hcols
        | cons c0 tail =>
          simp only
          unfold renameDF
          simp only [List.mem_map]
          refine ⟨c0, by rw [hc]; exact List.mem_cons_self _ _, ?_⟩
          simp

/-- The C1 counterexample partition: two rows with the same date. -/
def c1df : DF :=
  ⟨["date", "close"],
    [[("date", .str "2024-01-02"), ("close", .str "11")],
     [("date", .str "2024-01-02"), ("close", .str "13")]]⟩

/-- The C1 counterexample raw tree: one daily-price partition. -/
def c1files : FS := [(⟨["TIME_SERIES_DAILY_ADJUSTED"], "ABC"⟩, c1df)]

/-- C1 counterexample: the aggregated price_daily table holds two
distinct rows sharing the same (ticker, date) pair — nothing in the
aggregation deduplicates — refuting "no two rows with the same
(ticker, date) pair" for arbitrary contributing partitions. -/
theorem c1_counterexample :
    transform_raw_to_final pandasOracles c1files =
      .ok [("price_daily",
        ⟨["date", "close", "ticker"],
          [[("date", .date 20240102), ("close", .int 11), ("ticker", .str "ABC")],
           [("date", .date 20240102), ("close", .int 13),
            ("ticker", .str "ABC")]]⟩)] ∧
    getCell [("date", Payload.date 20240102), ("close", Payload.int 11),
        ("ticker", Payload.str "ABC")] "ticker" =
      getCell [("date", .date 20240102), ("close", .int 13),
        ("ticker", .str "ABC")] "ticker" ∧
    getCell [("date", Payload.date 20240102), ("close", Payload.int 11),
        ("ticker", Payload.str "ABC")] "date" =
      getCell [("date", .date 20240102), ("close", .int 13),
        ("ticker", .str "ABC")] "date" ∧
    ([("date", Payload.date 20240102), ("close", Payload.int 11),
        ("ticker", Payload.str "ABC")] : Row) ≠
      [("date", .date 20240102), ("close", .int 13), ("ticker", .str "ABC")] :=
  ⟨rfl, rfl, rfl, by decide⟩

/-- Membership in `activeDaily` gives non-degenerate frames. -/
theorem activeDaily_shape (files : FS) (f : RPath × DF)
    (hf : f ∈ activeDaily files) :
    f.2.cols ≠ [] ∧ f.2.rows ≠ [] ∧
      f.1.parentName = "TIME_SERIES_DAILY_ADJUSTED" := by
  unfold activeDaily activeFiles at hf
  rw [List.mem_filter] at hf
  obtain ⟨hf1, hpar⟩ := hf
  rw [List.mem_filter] at hf1
  obtain ⟨_, hact⟩ := hf1
  rw [Bool.and_eq_true] at hact
  have hemp : f.2.isEmptyDF = false := by
    have := hact.2
    cases hh : f.2.isEmptyDF with
    | false => rfl
    | true => rw [hh] at this; cases this
  unfold DF.isEmptyDF at hemp
  rw [Bool.or_eq_false_iff] at hemp
  refine ⟨?_, ?_, by simpa using hpar⟩
  · intro h
    rw [isEmpty_true_of_eq _ h] at hemp
    cases hemp.2
  · intro h
    rw [isEmpty_true_of_eq _ h] at hemp
    cases hemp.1

/-- The per-frame facts the C1 argument needs about one normalized
daily partition. -/
theorem normalized_daily_facts (o : Oracles) (files : FS) (f : RPath × DF)
    (hf : f ∈ activeDaily files) :
    (∀ r ∈ (normalize_price o f.2 f.1.stem).rows,
      getCell r "ticker" = .str f.1.stem) ∧
    (normalize_price o f.2 f.1.stem).cols.Nodup ∧
    (∀ c ∈ (normalize_price o f.2 f.1.stem).cols, c ∈ PRICE_COLS ++ ["ticker"]) ∧
    "date" ∈ (normalize_price o f.2 f.1.stem).cols ∧
    "ticker" ∈ (normalize_price o f.2 f.1.stem).cols := by
  obtain ⟨hcne, _, _⟩ := activeDaily_shape files f hf
  obtain ⟨inner, heq, htick, hconst, hdate⟩ := normalize_price_spec o f.2 f.1.stem
  have hdt := hdate hcne
  have htickkeep : "ticker" ∈ (PRICE_COLS ++ ["ticker"]).filter
      (fun c => inner.cols.contains c) := by
    rw [List.mem_filter]
    exact ⟨by simp [PRICE_COLS], by simpa using htick⟩
  have hdatekeep : "date" ∈ (PRICE_COLS ++ ["ticker"]).filter
      (fun c => inner.cols.contains c) := by
    rw [List.mem_filter]
    exact ⟨by simp [PRICE_COLS], by simpa using hdt⟩
  rw [heq]
  refine ⟨?_, ?_, ?_, ?_, ?_⟩
  · exact selectCols_getCell_const _ inner "ticker" (.str f.1.stem) htickkeep hconst
  · exact List.Nodup.filter _ (by decide)
  · intro c hc
    exact (List.mem_filter.mp hc).1
  · exact hdatekeep
  · exact htickkeep

theorem dropNa_rows (c : String) (d : DF) :
    (dropNa c d).rows = d.rows.filter (fun r => !pbeq (getCell r c) .null) := rfl

theorem dropNa_cols (c : String) (d : DF) : (dropNa c d).cols = d.cols := rfl

theorem dfConcat_cols (l : List DF) :
    (dfConcat l).cols = l.foldl (fun acc d => colUnion acc d.cols) [] := rfl

theorem dfConcat_rows (l : List DF) :
    (dfConcat l).rows = (l.map DF.rows).flatten := rfl

/-- C1 amended: over any raw tree, the aggregated price_daily table has
a duplicate-free column set drawn from the expected ten names, always
including date and ticker, and equal to the union of the columns the
contributing partitions actually produce after normalization; and it
has no two rows with the same (ticker, date) pair provided the
contributing daily partitions have pairwise-distinct file stems and no
single partition normalizes to two surviving rows with the same date. -/
theorem c1_amended_price_daily_schema (o : Oracles) (files : FS)
    (hcontrib : activeDaily files ≠ [])
    (hstems : (activeDaily files).Pairwise (fun f g => f.1.stem ≠ g.1.stem))
    (hdates : ∀ f ∈ activeDaily files,
      ((normalize_price o f.2 f.1.stem).rows.filter
          (fun r => !pbeq (getCell r "date") .null)).Pairwise
        (fun a b => getCell a "date" ≠ getCell b "date")) :
    ∃ outs d, transform_raw_to_final o files = .ok outs ∧
      lookupOut outs "price_daily" = some d ∧
      d.cols.Nodup ∧
      (∀ c ∈ d.cols, c ∈ PRICE_COLS ++ ["ticker"]) ∧
      "date" ∈ d.cols ∧ "ticker" ∈ d.cols ∧
      (∀ c, c ∈ d.cols ↔ ∃ f ∈ activeDaily files,
        c ∈ (normalize_price o f.2 f.1.stem).cols) ∧
      d.rows.Pairwise (fun a b =>
        ¬(getCell a "ticker" = getCell b "ticker" ∧
          getCell a "date" = getCell b "date")) := by
  have hfilesne : files ≠ [] := by
    intro h
    apply hcontrib
    rw [h]
    rfl
  have hie := isEmpty_false_of_ne files hfilesne
  have hframes := priceFrames_eq_map o files
  have hpdne : priceFrames o "TIME_SERIES_DAILY_ADJUSTED" files ≠ [] := by
    rw [hframes]
    intro h
    exact hcontrib (List.map_eq_nil_iff.mp h)
  have hpdf := isEmpty_false_of_ne _ hpdne
  have hform : ∃ tail, transform_raw_to_final o files =
      .ok (("price_daily", dropNa "date"
        (dfConcat (priceFrames o "TIME_SERIES_DAILY_ADJUSTED" files))) :: tail) := by
    unfold transform_raw_to_final
    rw [hie]
    simp only [Bool.false_eq_true, if_false, ite_false, hpdf, Bool.not_false,
      if_true, ite_true, List.singleton_append, List.cons_append,
      List.isEmpty_cons]
    exact ⟨_, rfl⟩
  obtain ⟨tail, htr⟩ := hform
  have hcolsD : (dropNa "date"
      (dfConcat (priceFrames o "TIME_SERIES_DAILY_ADJUSTED" files))).cols =
      ((activeDaily files).map
        (fun f => normalize_price o f.2 f.1.stem)).foldl
        (fun acc d => colUnion acc d.cols) [] := by
    rw [dropNa_cols, hframes, dfConcat_cols]
  refine ⟨_, dropNa "date"
    (dfConcat (priceFrames o "TIME_SERIES_DAILY_ADJUSTED" files)), htr,
    ?_, ?_, ?_, ?_, ?_, ?_, ?_⟩
  · simp [lookupOut]
  · rw [hcolsD]
    refine foldl_colUnion_nodup DF.cols _ [] List.nodup_nil ?_
    intro x hx
    rw [List.mem_map] at hx
    obtain ⟨f, hf, rfl⟩ := hx
    exact (normalized_daily_facts o files f hf).2.1
  · intro c hc
    rw [hcolsD, mem_foldl_colUnion DF.cols] at hc
    rcases hc with hc | ⟨x, hx, hc⟩
    · cases hc
    · rw [List.mem_map] at hx
      obtain ⟨f, hf, rfl⟩ := hx
      exact (normalized_daily_facts o files f hf).2.2.1 c hc
  · rw [hcolsD, mem_foldl_colUnion DF.cols]
    right
    cases hAD : activeDaily files with
    | nil => exact absurd hAD hcontrib
    | cons f0 t0 =>
      have hf0 : f0 ∈ activeDaily files := by
        rw [hAD]; exact List.mem_cons_self _ _
      exact ⟨normalize_price o f0.2 f0.1.stem,
        List.mem_map.mpr ⟨f0, List.mem_cons_self _ _, rfl⟩,
        (normalized_daily_facts o files f0 hf0).2.2.2.1⟩
  · rw [hcolsD, mem_foldl_colUnion DF.cols]
    right
    cases hAD : activeDaily files with
    | nil => exact absurd hAD hcontrib
    | cons f0 t0 =>
      have hf0 : f0 ∈ activeDaily files := by
        rw [hAD]; exact List.mem_cons_self _ _
      exact ⟨normalize_price o f0.2 f0.1.stem,
        List.mem_map.mpr ⟨f0, List.mem_cons_self _ _, rfl⟩,
        (normalized_daily_facts o files f0 hf0).2.2.2.2⟩
  · intro c
    rw [hcolsD, mem_foldl_colUnion DF.cols]
    constructor
    · rintro (hc | ⟨x, hx, hc⟩)
      · cases hc
      · rw [List.mem_map] at hx
        obtain ⟨f, hf, rfl⟩ := hx
        exact ⟨f, hf, hc⟩
    · rintro ⟨f, hf, hc⟩
      exact Or.inr ⟨normalize_price o f.2 f.1.stem,
        List.mem_map.mpr ⟨f, hf, rfl⟩, hc⟩
  · have hrowsD : (dropNa "date"
        (dfConcat (priceFrames o "TIME_SERIES_DAILY_ADJUSTED" files))).rows =
        ((activeDaily files).map
          (fun f => (normalize_price o f.2 f.1.stem).rows.filter
            (fun r => !pbeq (getCell r "date") .null))).flatten := by
      rw [dropNa_rows, hframes, dfConcat_rows, List.filter_flatten]
      simp only [List.map_map, Function.comp_def]
    rw [hrowsD, List.pairwise_flatten]
    constructor
    · intro sub hsub
      rw [List.mem_map] at hsub
      obtain ⟨f, hfAD, rfl⟩ := hsub
      exact List.Pairwise.imp (fun hne hconj => hne hconj.2) (hdates f hfAD)
    · rw [List.pairwise_map]
      refine List.Pairwise.imp_of_mem ?_ hstems
      intro f g hfm hgm hne x hx y hy hconj
      have hxr : x ∈ (normalize_price o f.2 f.1.stem).rows :=
        List.mem_of_mem_filter hx
      have hyr : y ∈ (normalize_price o g.2 g.1.stem).rows :=
        List.mem_of_mem_filter hy
      have hxt := (normalized_daily_facts o files f hfm).1 x hxr
      have hyt := (normalized_daily_facts o files g hgm).1 y hyr
      rw [hxt, hyt] at hconj
      exact hne (Payload.str.inj hconj.1)

/-- A two-ticker raw tree with distinct stems and distinct dates within
each partition, for the C1 witness. -/
def c1wfiles : FS :=
  [(⟨["TIME_SERIES_DAILY_ADJUSTED"], "AAA"⟩,
    ⟨["date", "close"],
      [[("date", .str "2024-01-02"), ("close", .str "10")],
       [("date", .str "2024-01-03"), ("close", .str "11")]]⟩),
   (⟨["TIME_SERIES_DAILY_ADJUSTED"], "BBB"⟩,
    ⟨["date", "close"], [[("date", .str "2024-01-02"), ("close", .str "12")]]⟩)]

/-- Witness for C1 amended at the concrete two-ticker tree. -/
theorem c1_amended_price_daily_schema_witness :
    ∃ outs d, transform_raw_to_final pandasOracles c1wfiles = .ok outs ∧
      lookupOut outs "price_daily" = some d ∧
      d.cols.Nodup ∧
      (∀ c ∈ d.cols, c ∈ PRICE_COLS ++ ["ticker"]) ∧
      "date" ∈ d.cols ∧ "ticker" ∈ d.cols ∧
      (∀ c, c ∈ d.cols ↔ ∃ f ∈ activeDaily c1wfiles,
        c ∈ (normalize_price pandasOracles f.2 f.1.stem).cols) ∧
      d.rows.Pairwise (fun a b =>
        ¬(getCell a "ticker" = getCell b "ticker" ∧
          getCell a "date" = getCell b "date")) :=
  c1_amended_price_daily_schema pandasOracles c1wfiles (by decide) (by decide)
    (by decide)

end QDP
